import Mathlib

/-!
Verification of the svd2utra SVD-to-UTRA code generator
(`src/svd2utra/src/generate.rs`).

The Rust source is shallowly embedded:

* the data model (`Field`, `Register`, `Interrupt`, `Peripheral`,
  `MemoryRegion`, `Description`) is embedded as Lean structures with
  `usize` rendered as `Nat` (overflow of `usize` cannot occur here:
  values are produced by `from_str_radix`, which itself rejects
  out-of-range literals);
* the numeric literal parser (`get_base`, `parse_usize`) works on
  `List Char` (the Rust code converts the byte slice back to a `String`
  with `String::from_utf8`; its `NonUTF8` branch is unreachable in the
  program because every call site passes `String::as_bytes` output of an
  already-decoded `String`);
* the XML event stream delivered by quick-xml`s `Reader::read_event` is
  embedded as a `List Event`; reading past the end of the list yields
  `Event.eof`, exactly as the tokenizer keeps returning `Ok(Event::Eof)`;
* each Rust parsing routine becomes a function on the event list.  A
  routine can finish in four ways, captured by `Res`: return a value and
  the remaining events (`ok`), return a typed `ParseError` (`err`),
  abort the process via `panic!` (`panic`), or never return (`hang`,
  which the node-level loops do on truncated input because they ignore
  `Ok(Event::Eof)`).  The loops are given a fuel argument bounding the
  number of `read_event` calls; exhausted fuel is reported as `hang`,
  and every theorem quantifies over the fuel or fixes a concrete,
  sufficient amount;
* the emitter (`print_header`, `print_memory_regions`,
  `print_peripherals`, `print_tests`) is embedded as pure functions to
  `String`; `writeln!` appends the line plus a newline to the sink, and
  the sink (which never fails in the embedding) is made explicit in
  `generate`.
-/

namespace Svd2Utra

/-- The typed failure values of `generate.rs` (enum `ParseError`). -/
inductive ParseError where
  | UnexpectedTag
  | MissingValue
  | ParseIntError
  | NonUTF8
  | WriteError
deriving DecidableEq, Repr

/-- Embedding of `struct Field` of `generate.rs`. -/
structure Field where
  name : String
  lsb : Nat
  msb : Nat
deriving DecidableEq, Repr

/-- Embedding of `struct Register` of `generate.rs`. -/
structure Register where
  name : String
  offset : Nat
  description : Option String
  fields : List Field
deriving DecidableEq, Repr

/-- Embedding of `struct Interrupt` of `generate.rs`. -/
structure Interrupt where
  name : String
  value : Nat
deriving DecidableEq, Repr

/-- Embedding of `struct Peripheral` of `generate.rs`. -/
structure Peripheral where
  name : String
  base : Nat
  size : Nat
  interrupt : List Interrupt
  registers : List Register
deriving DecidableEq, Repr

/-- Embedding of `struct MemoryRegion` of `generate.rs`. -/
structure MemoryRegion where
  name : String
  base : Nat
  size : Nat
deriving DecidableEq, Repr

/-- Embedding of `struct Description` of `generate.rs`. -/
structure Description where
  peripherals : List Peripheral
  memory_regions : List MemoryRegion
deriving DecidableEq, Repr

/-! ## Numeric literal parser (`get_base`, `parse_usize`) -/

/-- Rust `str::starts_with` for a two-character pattern. -/
def startsWith2 (c1 c2 : Char) : List Char → Bool
  | a :: b :: _ => a = c1 && b = c2
  | _ => false

/-- Rust `str::trim_start_matches` for a two-character pattern: the
pattern is removed from the front repeatedly, as long as it matches. -/
def trimStartMatches2 (c1 c2 : Char) : List Char → List Char
  | a :: b :: rest =>
    if a = c1 ∧ b = c2 then trimStartMatches2 c1 c2 rest else a :: b :: rest
  | s => s

/-- Rust `str::trim_start_matches('0')`: strips every leading `'0'`. -/
def trimStartZeros : List Char → List Char
  | [] => []
  | c :: rest => if c = '0' then trimStartZeros rest else c :: rest

/-- Embedding of `get_base` of `generate.rs` (lines 57-71): pick the radix from the
literal`s prefix and strip that prefix. -/
def get_base (value : List Char) : List Char × Nat :=
  if startsWith2 '0' 'x' value then (trimStartMatches2 '0' 'x' value, 16)
  else if startsWith2 '0' 'X' value then (trimStartMatches2 '0' 'X' value, 16)
  else if startsWith2 '0' 'b' value then (trimStartMatches2 '0' 'b' value, 2)
  else if startsWith2 '0' 'B' value then (trimStartMatches2 '0' 'B' value, 2)
  else if value.head? = some '0' ∧ value ≠ ['0'] then (trimStartZeros value, 8)
  else (value, 10)

/-- Rust `char::to_digit`: digits `0-9` and letters (either case) up to
the radix. -/
def to_digit (c : Char) (radix : Nat) : Option Nat :=
  let v : Option Nat :=
    if '0' ≤ c ∧ c ≤ '9' then some (c.toNat - 48)
    else if 'a' ≤ c ∧ c ≤ 'z' then some (c.toNat - 97 + 10)
    else if 'A' ≤ c ∧ c ≤ 'Z' then some (c.toNat - 65 + 10)
    else none
  match v with
  | some d => if d < radix then some d else none
  | none => none

/-- Value of `usize::MAX` on the machine running the generator (the build host,
assumed 64-bit). -/
def USIZE_MAX : Nat := 2 ^ 64 - 1

/-- Digit-accumulation loop of Rust `usize::from_str_radix`: an invalid
digit or exceeding `usize::MAX` is an error (`none`). -/
def from_str_radix_core (radix : Nat) : List Char → Nat → Option Nat
  | [], acc => some acc
  | c :: rest, acc =>
    match to_digit c radix with
    | some d =>
      let acc2 := acc * radix + d
      if acc2 > USIZE_MAX then none else from_str_radix_core radix rest acc2
    | none => none

/-- Rust `usize::from_str_radix`: an optional leading `+` sign, then a
nonempty digit string; a leading `-` is rejected for unsigned types. -/
def from_str_radix (s : List Char) (radix : Nat) : Option Nat :=
  match s with
  | [] => none
  | c :: rest =>
    if c = '+' then (if rest = [] then none else from_str_radix_core radix rest 0)
    else if c = '-' then none
    else from_str_radix_core radix (c :: rest) 0

/-- Embedding of `parse_usize` of `generate.rs` (lines 73-77).  The Rust function
takes bytes and re-decodes them (`NonUTF8` on failure); every caller
passes `String::as_bytes` of a decoded `String`, so that branch is dead
and the embedding takes the characters directly. -/
def parse_usize (value : List Char) : Except ParseError Nat :=
  let p := get_base value
  match from_str_radix p.1 p.2 with
  | some n => Except.ok n
  | none => Except.error ParseError.ParseIntError

/-- Value of a digit string under a base, most significant digit first.
Modelled from the spec: the "exact intended integer value" of a literal
whose digits are all valid for the base. -/
def spec_digits_value (base : Nat) (acc : Nat) : List Char → Nat
  | [] => acc
  | c :: rest => spec_digits_value base (acc * base + (to_digit c base).getD 0) rest

/-! ## XML event stream and parsing routines -/

/-- One event of the quick-xml tokenizer as consumed by `generate.rs`.
`start name` / `endTag name` carry the decoded tag name; `startBad` is a
start tag whose name fails `unescape_and_decode` (it can never equal an
ASCII byte-string literal, and decoding it yields `NonUTF8`); `textBad`
is likewise a text event whose decoding fails; `other` stands for every
remaining event kind (comments, CData, declarations, empty tags);
`tokErr` is `Err(_)` from `read_event`. -/
inductive Event where
  | start (name : String)
  | startBad
  | endTag (name : String)
  | text (s : String)
  | textBad
  | eof
  | other
  | tokErr
deriving DecidableEq, Repr

/-- One `reader.read_event(&mut buf)` call: past the end of the stream
the tokenizer keeps returning `Ok(Event::Eof)`. -/
def read : List Event → Event × List Event
  | [] => (Event.eof, [])
  | e :: rest => (e, rest)

/-- Outcome of a Rust parsing routine: a returned value plus the events
left unconsumed, a returned typed error, a `panic!` unwinding the whole
process, or non-termination (`hang`, also used when the fuel bounding
the number of `read_event` calls runs out). -/
inductive Res (α : Type) where
  | ok (a : α) (rest : List Event)
  | err (e : ParseError)
  | panic
  | hang
deriving DecidableEq, Repr

/-- Embedding of `extract_contents` (lines 79-90): read one event and
expect decodable text. -/
def extract_contents (evs : List Event) : Res String :=
  match read evs with
  | (Event.tokErr, _) => Res.err ParseError.UnexpectedTag
  | (Event.text s, rest) => Res.ok s rest
  | (Event.textBad, _) => Res.err ParseError.NonUTF8
  | _ => Res.err ParseError.UnexpectedTag

/-- Loop of `generate_field` (lines 92-118) with the `name`/`lsb`/`msb`
locals as explicit state.  On the closing `</field>` the record is
built, each missing scalar giving `MissingValue` (lines 120-124).
Unknown decodable start tags and all other `Ok(_)` events are ignored;
a tokenizer error panics. -/
def generate_field_loop : Nat → List Event → Option String → Option Nat → Option Nat → Res Field
  | 0, _, _, _, _ => Res.hang
  | fuel + 1, evs, name, lsb, msb =>
    match read evs with
    | (Event.start tag, rest) =>
      if tag = "name" then
        match extract_contents rest with
        | Res.ok s rest2 => generate_field_loop fuel rest2 (some s) lsb msb
        | Res.err e => Res.err e
        | Res.panic => Res.panic
        | Res.hang => Res.hang
      else if tag = "lsb" then
        match extract_contents rest with
        | Res.ok s rest2 =>
          match parse_usize s.data with
          | Except.ok n => generate_field_loop fuel rest2 name (some n) msb
          | Except.error e => Res.err e
        | Res.err e => Res.err e
        | Res.panic => Res.panic
        | Res.hang => Res.hang
      else if tag = "msb" then
        match extract_contents rest with
        | Res.ok s rest2 =>
          match parse_usize s.data with
          | Except.ok n => generate_field_loop fuel rest2 name lsb (some n)
          | Except.error e => Res.err e
        | Res.err e => Res.err e
        | Res.panic => Res.panic
        | Res.hang => Res.hang
      else generate_field_loop fuel rest name lsb msb
    | (Event.startBad, _) => Res.err ParseError.NonUTF8
    | (Event.endTag tag, rest) =>
      if tag = "field" then
        match name with
        | none => Res.err ParseError.MissingValue
        | some nm =>
          match lsb with
          | none => Res.err ParseError.MissingValue
          | some l =>
            match msb with
            | none => Res.err ParseError.MissingValue
            | some m => Res.ok { name := nm, lsb := l, msb := m } rest
      else generate_field_loop fuel rest name lsb msb
    | (Event.tokErr, _) => Res.panic
    | (_, rest) => generate_field_loop fuel rest name lsb msb

/-- Embedding of `generate_field` (lines 92-125). -/
def generate_field (fuel : Nat) (evs : List Event) : Res Field :=
  generate_field_loop fuel evs none none none

/-- Embedding of `generate_fields` (lines 127-150): the `<fields>`
container loop.  Only `<field>` children are accepted; any other start
tag, a mismatched end tag, `Eof` or a tokenizer error panics; text
events are skipped.  Parsed fields are pushed onto the accumulator the
routine received by mutable reference. -/
def generate_fields : Nat → List Event → List Field → Res (List Field)
  | 0, _, _ => Res.hang
  | fuel + 1, evs, fields =>
    match read evs with
    | (Event.start tag, rest) =>
      if tag = "field" then
        match generate_field fuel rest with
        | Res.ok f rest2 => generate_fields fuel rest2 (fields ++ [f])
        | Res.err e => Res.err e
        | Res.panic => Res.panic
        | Res.hang => Res.hang
      else Res.panic
    | (Event.endTag tag, rest) =>
      if tag = "fields" then Res.ok fields rest else Res.panic
    | (Event.text _, rest) => generate_fields fuel rest fields
    | (Event.textBad, rest) => generate_fields fuel rest fields
    | _ => Res.panic

/-- Loop of `generate_register` (lines 152-181) with the
`name`/`offset`/`fields` locals as explicit state.  The `description`
local is declared immutable (`let description = None;`, line 156) and
never assigned, so the record built on `</register>` (lines 183-188)
always carries `description := none`. -/
def generate_register_loop : Nat → List Event → Option String → Option Nat → List Field → Res Register
  | 0, _, _, _, _ => Res.hang
  | fuel + 1, evs, name, offset, fields =>
    match read evs with
    | (Event.start tag, rest) =>
      if tag = "name" then
        match extract_contents rest with
        | Res.ok s rest2 => generate_register_loop fuel rest2 (some s) offset fields
        | Res.err e => Res.err e
        | Res.panic => Res.panic
        | Res.hang => Res.hang
      else if tag = "addressOffset" then
        match extract_contents rest with
        | Res.ok s rest2 =>
          match parse_usize s.data with
          | Except.ok n => generate_register_loop fuel rest2 name (some n) fields
          | Except.error e => Res.err e
        | Res.err e => Res.err e
        | Res.panic => Res.panic
        | Res.hang => Res.hang
      else if tag = "fields" then
        match generate_fields fuel rest fields with
        | Res.ok fields2 rest2 => generate_register_loop fuel rest2 name offset fields2
        | Res.err e => Res.err e
        | Res.panic => Res.panic
        | Res.hang => Res.hang
      else generate_register_loop fuel rest name offset fields
    | (Event.startBad, _) => Res.err ParseError.NonUTF8
    | (Event.endTag tag, rest) =>
      if tag = "register" then
        match name with
        | none => Res.err ParseError.MissingValue
        | some nm =>
          match offset with
          | none => Res.err ParseError.MissingValue
          | some off => Res.ok { name := nm, offset := off, description := none, fields := fields } rest
      else generate_register_loop fuel rest name offset fields
    | (Event.tokErr, _) => Res.panic
    | (_, rest) => generate_register_loop fuel rest name offset fields

/-- Embedding of `generate_register` (lines 152-189). -/
def generate_register (fuel : Nat) (evs : List Event) : Res Register :=
  generate_register_loop fuel evs none none []

/-- Loop of `generate_interrupts` (lines 191-220): gathers the
`name`/`value` locals until the closing `</interrupt>`. -/
def generate_interrupts_loop : Nat → List Event → Option String → Option Nat → Res (Option String × Option Nat)
  | 0, _, _, _ => Res.hang
  | fuel + 1, evs, name, value =>
    match read evs with
    | (Event.start tag, rest) =>
      if tag = "name" then
        match extract_contents rest with
        | Res.ok s rest2 => generate_interrupts_loop fuel rest2 (some s) value
        | Res.err e => Res.err e
        | Res.panic => Res.panic
        | Res.hang => Res.hang
      else if tag = "value" then
        match extract_contents rest with
        | Res.ok s rest2 =>
          match parse_usize s.data with
          | Except.ok n => generate_interrupts_loop fuel rest2 name (some n)
          | Except.error e => Res.err e
        | Res.err e => Res.err e
        | Res.panic => Res.panic
        | Res.hang => Res.hang
      else generate_interrupts_loop fuel rest name value
    | (Event.startBad, _) => Res.err ParseError.NonUTF8
    | (Event.endTag tag, rest) =>
      if tag = "interrupt" then Res.ok (name, value) rest
      else generate_interrupts_loop fuel rest name value
    | (Event.tokErr, _) => Res.panic
    | (_, rest) => generate_interrupts_loop fuel rest name value

/-- Embedding of `generate_interrupts` (lines 191-229): after the loop
breaks, one `Interrupt` is pushed onto the vector passed by mutable
reference, with `MissingValue` for a missing `name` or `value`
(lines 222-226). -/
def generate_interrupts (fuel : Nat) (evs : List Event) (interrupts : List Interrupt) : Res (List Interrupt) :=
  match generate_interrupts_loop fuel evs none none with
  | Res.ok (name, value) rest =>
    match name with
    | none => Res.err ParseError.MissingValue
    | some nm =>
      match value with
      | none => Res.err ParseError.MissingValue
      | some v => Res.ok (interrupts ++ [{ name := nm, value := v }]) rest
  | Res.err e => Res.err e
  | Res.panic => Res.panic
  | Res.hang => Res.hang

/-- Embedding of `generate_registers` (lines 231-253): the
`<registers>` container loop; only `<register>` children are accepted,
anything unexpected panics, text is skipped. -/
def generate_registers : Nat → List Event → List Register → Res (List Register)
  | 0, _, _ => Res.hang
  | fuel + 1, evs, registers =>
    match read evs with
    | (Event.start tag, rest) =>
      if tag = "register" then
        match generate_register fuel rest with
        | Res.ok r rest2 => generate_registers fuel rest2 (registers ++ [r])
        | Res.err e => Res.err e
        | Res.panic => Res.panic
        | Res.hang => Res.hang
      else Res.panic
    | (Event.endTag tag, rest) =>
      if tag = "registers" then Res.ok registers rest else Res.panic
    | (Event.text _, rest) => generate_registers fuel rest registers
    | (Event.textBad, rest) => generate_registers fuel rest registers
    | _ => Res.panic

/-- Loop of `generate_peripheral` (lines 255-287) with the
`name`/`base`/`size`/`registers`/`interrupts` locals as explicit
state. -/
def generate_peripheral_loop : Nat → List Event → Option String → Option Nat → Option Nat → List Register → List Interrupt → Res Peripheral
  | 0, _, _, _, _, _, _ => Res.hang
  | fuel + 1, evs, name, base, size, registers, interrupts =>
    match read evs with
    | (Event.start tag, rest) =>
      if tag = "name" then
        match extract_contents rest with
        | Res.ok s rest2 => generate_peripheral_loop fuel rest2 (some s) base size registers interrupts
        | Res.err e => Res.err e
        | Res.panic => Res.panic
        | Res.hang => Res.hang
      else if tag = "baseAddress" then
        match extract_contents rest with
        | Res.ok s rest2 =>
          match parse_usize s.data with
          | Except.ok n => generate_peripheral_loop fuel rest2 name (some n) size registers interrupts
          | Except.error e => Res.err e
        | Res.err e => Res.err e
        | Res.panic => Res.panic
        | Res.hang => Res.hang
      else if tag = "size" then
        match extract_contents rest with
        | Res.ok s rest2 =>
          match parse_usize s.data with
          | Except.ok n => generate_peripheral_loop fuel rest2 name base (some n) registers interrupts
          | Except.error e => Res.err e
        | Res.err e => Res.err e
        | Res.panic => Res.panic
        | Res.hang => Res.hang
      else if tag = "registers" then
        match generate_registers fuel rest registers with
        | Res.ok registers2 rest2 => generate_peripheral_loop fuel rest2 name base size registers2 interrupts
        | Res.err e => Res.err e
        | Res.panic => Res.panic
        | Res.hang => Res.hang
      else if tag = "interrupt" then
        match generate_interrupts fuel rest interrupts with
        | Res.ok interrupts2 rest2 => generate_peripheral_loop fuel rest2 name base size registers interrupts2
        | Res.err e => Res.err e
        | Res.panic => Res.panic
        | Res.hang => Res.hang
      else generate_peripheral_loop fuel rest name base size registers interrupts
    | (Event.startBad, _) => Res.err ParseError.NonUTF8
    | (Event.endTag tag, rest) =>
      if tag = "peripheral" then
        match name with
        | none => Res.err ParseError.MissingValue
        | some nm =>
          match base with
          | none => Res.err ParseError.MissingValue
          | some b =>
            match size with
            | none => Res.err ParseError.MissingValue
            | some sz => Res.ok { name := nm, base := b, size := sz, interrupt := interrupts, registers := registers } rest
      else generate_peripheral_loop fuel rest name base size registers interrupts
    | (Event.tokErr, _) => Res.panic
    | (_, rest) => generate_peripheral_loop fuel rest name base size registers interrupts

/-- Embedding of `generate_peripheral` (lines 255-296). -/
def generate_peripheral (fuel : Nat) (evs : List Event) : Res Peripheral :=
  generate_peripheral_loop fuel evs none none none [] []

/-- Embedding of `generate_peripherals` (lines 298-318): the
`<peripherals>` container loop over its local `peripherals` vector. -/
def generate_peripherals : Nat → List Event → List Peripheral → Res (List Peripheral)
  | 0, _, _ => Res.hang
  | fuel + 1, evs, peripherals =>
    match read evs with
    | (Event.start tag, rest) =>
      if tag = "peripheral" then
        match generate_peripheral fuel rest with
        | Res.ok p rest2 => generate_peripherals fuel rest2 (peripherals ++ [p])
        | Res.err e => Res.err e
        | Res.panic => Res.panic
        | Res.hang => Res.hang
      else Res.panic
    | (Event.endTag tag, rest) =>
      if tag = "peripherals" then Res.ok peripherals rest else Res.panic
    | (Event.text _, rest) => generate_peripherals fuel rest peripherals
    | (Event.textBad, rest) => generate_peripherals fuel rest peripherals
    | _ => Res.panic

/-- Loop of `generate_memory_region` (lines 320-349) with the
`name`/`base`/`size` locals as explicit state. -/
def generate_memory_region_loop : Nat → List Event → Option String → Option Nat → Option Nat → Res MemoryRegion
  | 0, _, _, _, _ => Res.hang
  | fuel + 1, evs, name, base, size =>
    match read evs with
    | (Event.start tag, rest) =>
      if tag = "name" then
        match extract_contents rest with
        | Res.ok s rest2 => generate_memory_region_loop fuel rest2 (some s) base size
        | Res.err e => Res.err e
        | Res.panic => Res.panic
        | Res.hang => Res.hang
      else if tag = "baseAddress" then
        match extract_contents rest with
        | Res.ok s rest2 =>
          match parse_usize s.data with
          | Except.ok n => generate_memory_region_loop fuel rest2 name (some n) size
          | Except.error e => Res.err e
        | Res.err e => Res.err e
        | Res.panic => Res.panic
        | Res.hang => Res.hang
      else if tag = "size" then
        match extract_contents rest with
        | Res.ok s rest2 =>
          match parse_usize s.data with
          | Except.ok n => generate_memory_region_loop fuel rest2 name base (some n)
          | Except.error e => Res.err e
        | Res.err e => Res.err e
        | Res.panic => Res.panic
        | Res.hang => Res.hang
      else generate_memory_region_loop fuel rest name base size
    | (Event.startBad, _) => Res.err ParseError.NonUTF8
    | (Event.endTag tag, rest) =>
      if tag = "memoryRegion" then
        match name with
        | none => Res.err ParseError.MissingValue
        | some nm =>
          match base with
          | none => Res.err ParseError.MissingValue
          | some b =>
            match size with
            | none => Res.err ParseError.MissingValue
            | some sz => Res.ok { name := nm, base := b, size := sz } rest
      else generate_memory_region_loop fuel rest name base size
    | (Event.tokErr, _) => Res.panic
    | (_, rest) => generate_memory_region_loop fuel rest name base size

/-- Embedding of `generate_memory_region` (lines 320-356). -/
def generate_memory_region (fuel : Nat) (evs : List Event) : Res MemoryRegion :=
  generate_memory_region_loop fuel evs none none none

/-- Embedding of `parse_memory_regions` (lines 358-382): the
`<memoryRegions>` container loop pushing onto
`description.memory_regions`. -/
def parse_memory_regions : Nat → List Event → List MemoryRegion → Res (List MemoryRegion)
  | 0, _, _ => Res.hang
  | fuel + 1, evs, regions =>
    match read evs with
    | (Event.start tag, rest) =>
      if tag = "memoryRegion" then
        match generate_memory_region fuel rest with
        | Res.ok r rest2 => parse_memory_regions fuel rest2 (regions ++ [r])
        | Res.err e => Res.err e
        | Res.panic => Res.panic
        | Res.hang => Res.hang
      else Res.panic
    | (Event.endTag tag, rest) =>
      if tag = "memoryRegions" then Res.ok regions rest else Res.panic
    | (Event.text _, rest) => parse_memory_regions fuel rest regions
    | (Event.textBad, rest) => parse_memory_regions fuel rest regions
    | _ => Res.panic

/-- Embedding of `parse_vendor_extensions` (lines 384-406): the
`<vendorExtensions>` container loop; its only recognized child is
`<memoryRegions>`. -/
def parse_vendor_extensions : Nat → List Event → List MemoryRegion → Res (List MemoryRegion)
  | 0, _, _ => Res.hang
  | fuel + 1, evs, regions =>
    match read evs with
    | (Event.start tag, rest) =>
      if tag = "memoryRegions" then
        match parse_memory_regions fuel rest regions with
        | Res.ok regions2 rest2 => parse_vendor_extensions fuel rest2 regions2
        | Res.err e => Res.err e
        | Res.panic => Res.panic
        | Res.hang => Res.hang
      else Res.panic
    | (Event.endTag tag, rest) =>
      if tag = "vendorExtensions" then Res.ok regions rest else Res.panic
    | (Event.text _, rest) => parse_vendor_extensions fuel rest regions
    | (Event.textBad, rest) => parse_vendor_extensions fuel rest regions
    | _ => Res.panic

/-- Loop of `parse_svd` (lines 662-678): at the root only
`<peripherals>` (whose result is assigned to
`description.peripherals`, replacing it) and `<vendorExtensions>` are
recognized; every other event except a tokenizer error is ignored;
`Eof` breaks and returns the description. -/
def parse_svd_loop : Nat → List Event → Description → Res Description
  | 0, _, _ => Res.hang
  | fuel + 1, evs, description =>
    match read evs with
    | (Event.start tag, rest) =>
      if tag = "peripherals" then
        match generate_peripherals fuel rest [] with
        | Res.ok ps rest2 => parse_svd_loop fuel rest2 { description with peripherals := ps }
        | Res.err e => Res.err e
        | Res.panic => Res.panic
        | Res.hang => Res.hang
      else if tag = "vendorExtensions" then
        match parse_vendor_extensions fuel rest description.memory_regions with
        | Res.ok regions rest2 => parse_svd_loop fuel rest2 { description with memory_regions := regions }
        | Res.err e => Res.err e
        | Res.panic => Res.panic
        | Res.hang => Res.hang
      else parse_svd_loop fuel rest description
    | (Event.eof, rest) => Res.ok description rest
    | (Event.tokErr, _) => Res.panic
    | (_, rest) => parse_svd_loop fuel rest description

/-- Embedding of `parse_svd` (lines 657-680), starting from
`Description::default()`. -/
def parse_svd (fuel : Nat) (evs : List Event) : Res Description :=
  parse_svd_loop fuel evs { peripherals := [], memory_regions := [] }

/-- Fixed preamble written by `print_header` (lines 408-551): the contents of the raw string literal, written verbatim by `write_all`. -/
def print_header : String :=
  "\n" ++
  "use core::convert::TryInto;\n" ++
  "pub struct Register \x7b\n" ++
  "    /// Offset of this register within this CSR\n" ++
  "    offset: usize,\n" ++
  "\x7d\n" ++
  "impl Register \x7b\n" ++
  "    pub const fn new(offset: usize) -> Register \x7b\n" ++
  "        Register \x7b offset \x7d\n" ++
  "    \x7d\n" ++
  "\x7d\n" ++
  "pub struct Field \x7b\n" ++
  "    /// A bitmask we use to AND to the value, unshifted.\n" ++
  "    /// E.g. for a width of \x603\x60 bits, this mask would be 0b111.\n" ++
  "    mask: usize,\n" ++
  "    /// Offset of the first bit in this field\n" ++
  "    offset: usize,\n" ++
  "    /// A copy of the register address that this field\n" ++
  "    /// is a member of. Ideally this is optimized out by the\n" ++
  "    /// compiler.\n" ++
  "    register: Register,\n" ++
  "\x7d\n" ++
  "impl Field \x7b\n" ++
  "    /// Define a new CSR field with the given width at a specified\n" ++
  "    /// offset from the start of the register.\n" ++
  "    pub const fn new(width: usize, offset: usize, register: Register) -> Field \x7b\n" ++
  "        // Asserts don\x27t work in const fn yet.\n" ++
  "        // assert!(width != 0, \"field width cannot be 0\");\n" ++
  "        // assert!((width + offset) < 32, \"field with and offset must fit within a 32-bit value\");\n" ++
  "        // It would be lovely if we could call \x60usize::pow()\x60 in a const fn.\n" ++
  "        let mask = match width \x7b\n" ++
  "            0 => 0,\n" ++
  "            1 => 1,\n" ++
  "            2 => 3,\n" ++
  "            3 => 7,\n" ++
  "            4 => 15,\n" ++
  "            5 => 31,\n" ++
  "            6 => 63,\n" ++
  "            7 => 127,\n" ++
  "            8 => 255,\n" ++
  "            9 => 511,\n" ++
  "            10 => 1023,\n" ++
  "            11 => 2047,\n" ++
  "            12 => 4095,\n" ++
  "            13 => 8191,\n" ++
  "            14 => 16383,\n" ++
  "            15 => 32767,\n" ++
  "            16 => 65535,\n" ++
  "            17 => 131071,\n" ++
  "            18 => 262143,\n" ++
  "            19 => 524287,\n" ++
  "            20 => 1048575,\n" ++
  "            21 => 2097151,\n" ++
  "            22 => 4194303,\n" ++
  "            23 => 8388607,\n" ++
  "            24 => 16777215,\n" ++
  "            25 => 33554431,\n" ++
  "            26 => 67108863,\n" ++
  "            27 => 134217727,\n" ++
  "            28 => 268435455,\n" ++
  "            29 => 536870911,\n" ++
  "            30 => 1073741823,\n" ++
  "            31 => 2147483647,\n" ++
  "            _ => 0,\n" ++
  "        \x7d;\n" ++
  "        Field \x7b\n" ++
  "            mask,\n" ++
  "            offset,\n" ++
  "            register,\n" ++
  "        \x7d\n" ++
  "    \x7d\n" ++
  "\x7d\n" ++
  "pub struct CSR<T> \x7b\n" ++
  "    base: *mut T,\n" ++
  "\x7d\n" ++
  "impl<T> CSR<T>\n" ++
  "where\n" ++
  "    T: core::convert::TryFrom<usize> + core::convert::TryInto<usize> + core::default::Default,\n" ++
  "\x7b\n" ++
  "    pub fn new(base: *mut T) -> Self \x7b\n" ++
  "        CSR \x7b base \x7d\n" ++
  "    \x7d\n" ++
  "    /// Read the contents of this register\n" ++
  "    pub fn r(&mut self, reg: Register) -> T \x7b\n" ++
  "        let usize_base: *mut usize = unsafe \x7b core::mem::transmute(self.base) \x7d;\n" ++
  "        unsafe \x7b usize_base.add(reg.offset).read_volatile() \x7d\n" ++
  "            .try_into()\n" ++
  "            .unwrap_or_default()\n" ++
  "    \x7d\n" ++
  "    /// Read a field from this CSR\n" ++
  "    pub fn rf(&mut self, field: Field) -> T \x7b\n" ++
  "        let usize_base: *mut usize = unsafe \x7b core::mem::transmute(self.base) \x7d;\n" ++
  "        ((unsafe \x7b usize_base.add(field.register.offset).read_volatile() \x7d >> field.offset)\n" ++
  "            & field.mask)\n" ++
  "            .try_into()\n" ++
  "            .unwrap_or_default()\n" ++
  "    \x7d\n" ++
  "    /// Read-modify-write a given field in this CSR\n" ++
  "    pub fn rmwf(&mut self, field: Field, value: T) \x7b\n" ++
  "        let usize_base: *mut usize = unsafe \x7b core::mem::transmute(self.base) \x7d;\n" ++
  "        let value_as_usize: usize = value.try_into().unwrap_or_default() << field.offset;\n" ++
  "        let previous =\n" ++
  "            unsafe \x7b usize_base.add(field.register.offset).read_volatile() \x7d & !field.mask;\n" ++
  "        unsafe \x7b\n" ++
  "            usize_base\n" ++
  "                .add(field.register.offset)\n" ++
  "                .write_volatile(previous | value_as_usize)\n" ++
  "        \x7d;\n" ++
  "    \x7d\n" ++
  "    /// Write a given field without reading it first\n" ++
  "    pub fn wfo(&mut self, field: Field, value: T) \x7b\n" ++
  "        let usize_base: *mut usize = unsafe \x7b core::mem::transmute(self.base) \x7d;\n" ++
  "        let value_as_usize: usize = (value.try_into().unwrap_or_default() & field.mask) << field.offset;\n" ++
  "        unsafe \x7b\n" ++
  "            usize_base\n" ++
  "                .add(field.register.offset)\n" ++
  "                .write_volatile(value_as_usize)\n" ++
  "        \x7d;\n" ++
  "    \x7d\n" ++
  "    /// Write the entire contents of a register without reading it first\n" ++
  "    pub fn wo(&mut self, reg: Register, value: T) \x7b\n" ++
  "        let usize_base: *mut usize = unsafe \x7b core::mem::transmute(self.base) \x7d;\n" ++
  "        let value_as_usize: usize = value.try_into().unwrap_or_default();\n" ++
  "        unsafe \x7b usize_base.add(reg.offset).write_volatile(value_as_usize) \x7d;\n" ++
  "    \x7d\n" ++
  "    /// Zero a field from a provided value\n" ++
  "    pub fn zf(&mut self, field: Field, value: T) -> T \x7b\n" ++
  "        let value_as_usize: usize = value.try_into().unwrap_or_default();\n" ++
  "        (value_as_usize & !(field.mask << field.offset))\n" ++
  "            .try_into()\n" ++
  "            .unwrap_or_default()\n" ++
  "    \x7d\n" ++
  "    /// Shift & mask a value to its final field position\n" ++
  "    pub fn ms(&mut self, field: Field, value: T) -> T \x7b\n" ++
  "        let value_as_usize: usize = value.try_into().unwrap_or_default();\n" ++
  "        ((value_as_usize & field.mask) << field.offset)\n" ++
  "            .try_into()\n" ++
  "            .unwrap_or_default()\n" ++
  "    \x7d\n" ++
  "\x7d\n"

/-- Fixed leading block of `print_tests` (lines 624-632). -/
def print_tests_header : String :=
  "\n" ++
  "#[cfg(test)]\n" ++
  "mod tests \x7b\n" ++
  "    #[test]\n" ++
  "    #[ignore]\n" ++
  "    fn compile_check() \x7b\n" ++
  "        use super::*;\n"

/-! ## Code emitter -/

/-- Rust `str::to_uppercase`, restricted to ASCII, on which it agrees
with the full Unicode mapping (hardware element names are ASCII). -/
def to_uppercase (s : String) : String :=
  String.mk (s.data.map (fun c => if 'a' ≤ c ∧ c ≤ 'z' then Char.ofNat (c.toNat - 32) else c))

/-- Rust `str::to_lowercase`, restricted to ASCII, on which it agrees
with the full Unicode mapping. -/
def to_lowercase (s : String) : String :=
  String.mk (s.data.map (fun c => if 'A' ≤ c ∧ c ≤ 'Z' then Char.ofNat (c.toNat + 32) else c))

/-- Rust format specifier `{:08x}`: lowercase hex, zero-padded to at
least eight digits. -/
def hex8 (n : Nat) : String :=
  let ds := Nat.toDigits 16 n
  String.mk (List.replicate (8 - ds.length) '0' ++ ds)

/-- The two lines `print_memory_regions` writes for one region
(lines 555-566): base in `0x{:08x}` form, length in decimal; the region
name is used verbatim (no case transform). -/
def memory_region_lines (r : MemoryRegion) : String :=
  "pub const HW_" ++ r.name ++ "_MEM:     usize = 0x" ++ hex8 r.base ++ ";\n" ++
  "pub const HW_" ++ r.name ++ "_MEM_LEN: usize = " ++ toString r.size ++ ";\n"

/-- Embedding of `print_memory_regions` (lines 553-569). -/
def print_memory_regions (regions : List MemoryRegion) : String :=
  "// Physical base addresses of memory regions\n" ++
  regions.foldl (fun acc r => acc ++ memory_region_lines r) "" ++
  "\n"

/-- Base-address constant line of `print_peripherals` (lines 574-578):
upper-cased peripheral name, decimal base. -/
def periph_base_line (p : Peripheral) : String :=
  "pub const HW_" ++ to_uppercase p.name ++ "_BASE :   usize = " ++ toString p.base ++ ";\n"

/-- Register constant line (lines 591-595): upper-cased register
name. -/
def register_const_line (r : Register) : String :=
  "        pub const " ++ to_uppercase r.name ++ ": crate::Register = crate::Register::new(" ++ toString r.offset ++ ");\n"

/-- Name of the emitted field constant (lines 599-600): the register
name is used verbatim, only the field name is upper-cased. -/
def field_const_name (r : Register) (f : Field) : String :=
  r.name ++ "_" ++ to_uppercase f.name

/-- Field constant line (lines 596-605): width argument
`field.msb + 1 - field.lsb`, offset argument `field.lsb`, register
argument the verbatim register name.  (`Nat` subtraction truncates
where the Rust `usize` expression would overflow, which can only happen
for `lsb > msb + 1`.) -/
def field_const_line (r : Register) (f : Field) : String :=
  "        pub const " ++ field_const_name r f ++ ": crate::Field = crate::Field::new(" ++
  toString (f.msb + 1 - f.lsb) ++ ", " ++ toString f.lsb ++ ", " ++ r.name ++ ");\n"

/-- Interrupt constant line (lines 609-615). -/
def interrupt_line (i : Interrupt) : String :=
  "        pub const " ++ to_uppercase i.name ++ "_IRQ: usize = " ++ toString i.value ++ ";\n"

/-- Per-register block inside a peripheral module (lines 586-607): a
blank line, the optional description comment, the register constant and
the field constants in document order. -/
def register_block (r : Register) : String :=
  "\n" ++
  (match r.description with
   | some d => "        /// " ++ d ++ "\n"
   | none => "") ++
  register_const_line r ++
  r.fields.foldl (fun acc f => acc ++ field_const_line r f) ""

/-- Per-peripheral module block (lines 583-618): lower-cased module
name, the register blocks, a blank line, the interrupt constants. -/
def periph_mod_block (p : Peripheral) : String :=
  "\n" ++
  "    pub mod " ++ to_lowercase p.name ++ " \x7b\n" ++
  p.registers.foldl (fun acc r => acc ++ register_block r) "" ++
  "\n" ++
  p.interrupt.foldl (fun acc i => acc ++ interrupt_line i) "" ++
  "    \x7d\n"

/-- Embedding of `print_peripherals` (lines 571-621). -/
def print_peripherals (peripherals : List Peripheral) : String :=
  "// Physical base addresses of registers\n" ++
  peripherals.foldl (fun acc p => acc ++ periph_base_line p) "" ++
  "\n" ++
  "pub mod utra \x7b\n" ++
  peripherals.foldl (fun acc p => acc ++ periph_mod_block p) "" ++
  "\x7d\n"

/-- Field name referenced by the generated self-check test
(line 643): here the register name IS upper-cased, unlike in
`field_const_name`. -/
def tests_field_name (r : Register) (f : Field) : String :=
  to_uppercase r.name ++ "_" ++ to_uppercase f.name

/-- Five accessor-exercise lines per field in `print_tests`
(lines 642-649). -/
def tests_field_lines (per_name mod_name : String) (r : Register) (f : Field) : String :=
  "        let bar = " ++ per_name ++ ".rf(utra::" ++ mod_name ++ "::" ++ tests_field_name r f ++ ");\n" ++
  "        " ++ per_name ++ ".rmwf(utra::" ++ mod_name ++ "::" ++ tests_field_name r f ++ ", bar);\n" ++
  "        let mut baz = " ++ per_name ++ ".zf(utra::" ++ mod_name ++ "::" ++ tests_field_name r f ++ ", bar);\n" ++
  "        baz |= " ++ per_name ++ ".ms(utra::" ++ mod_name ++ "::" ++ tests_field_name r f ++ ", 1);\n" ++
  "        " ++ per_name ++ ".wfo(utra::" ++ mod_name ++ "::" ++ tests_field_name r f ++ ", baz);\n"

/-- Per-register exercise block in `print_tests` (lines 637-650). -/
def tests_register_block (per_name mod_name : String) (r : Register) : String :=
  "\n" ++
  "        let foo = " ++ per_name ++ ".r(utra::" ++ mod_name ++ "::" ++ to_uppercase r.name ++ ");\n" ++
  "        " ++ per_name ++ ".wo(utra::" ++ mod_name ++ "::" ++ to_uppercase r.name ++ ", foo);\n" ++
  r.fields.foldl (fun acc f => acc ++ tests_field_lines per_name mod_name r f) ""

/-- Per-peripheral exercise block in `print_tests` (lines 633-651). -/
def tests_peripheral_block (p : Peripheral) : String :=
  "        let mut " ++ (to_lowercase p.name ++ "_csr") ++ " = CSR::new(HW_" ++ to_uppercase p.name ++ "_BASE as *mut u32);\n" ++
  p.registers.foldl (fun acc r => acc ++ tests_register_block (to_lowercase p.name ++ "_csr") (to_lowercase p.name) r) ""

/-- Embedding of `print_tests` (lines 623-655). -/
def print_tests (peripherals : List Peripheral) : String :=
  print_tests_header ++
  peripherals.foldl (fun acc p => acc ++ tests_peripheral_block p) "" ++
  "    \x7d\n" ++
  "\x7d\n"

/-- Return status of `generate`. -/
inductive GenRes where
  | ok
  | err (e : ParseError)
  | panic
  | hang
deriving DecidableEq, Repr

/-- Embedding of `generate` (lines 682-691): parse first; only on
success are the four output sections appended to the destination sink
(whose prior contents `dest` the embedding makes explicit; writes to
the pure `String` sink cannot fail, so the `WriteError` paths are
dead here). -/
def generate (fuel : Nat) (evs : List Event) (dest : String) : GenRes × String :=
  match parse_svd fuel evs with
  | Res.ok d _ =>
    (GenRes.ok,
      dest ++ print_header ++ print_memory_regions d.memory_regions ++
      print_peripherals d.peripherals ++ print_tests d.peripherals)
  | Res.err e => (GenRes.err e, dest)
  | Res.panic => (GenRes.panic, dest)
  | Res.hang => (GenRes.hang, dest)

/-! ## Concrete inputs used by witnesses and counterexamples -/

/-- Event stream with an unexpected `<bogus>` tag inside `<fields>`. -/
def evs_unexpected_in_fields : List Event :=
  [Event.start ("peripherals"), Event.start ("peripheral"),
   Event.start ("registers"), Event.start ("register"),
   Event.start ("fields"), Event.start ("bogus")]

/-- Event stream of a well-formed `<register>` element (after its start
tag) carrying only a `<name>` child. -/
def evs_register_no_offset : List Event :=
  [Event.start ("name"), Event.text ("CTRL"), Event.endTag ("name"),
   Event.endTag ("register")]

/-- Event stream of a document whose single `<peripheral>` closes with
no children at all. -/
def evs_missing_peripheral : List Event :=
  [Event.start ("peripherals"), Event.start ("peripheral"),
   Event.endTag ("peripheral")]

/-- Lower-case register `ctrl` with field `en` occupying bit 0. -/
def reg_ctrl : Register := { name := "ctrl", offset := 0, description := none, fields := [{ name := "en", lsb := 0, msb := 0 }] }

/-- The `en` field of `reg_ctrl`. -/
def fld_en : Field := { name := "en", lsb := 0, msb := 0 }

/-- A memory region whose name is lower-case. -/
def mr_sram : MemoryRegion := { name := "sram", base := 1073872896, size := 32768 }

/-- Event stream of a document in which peripherals, registers, fields
and memory regions all appear in anti-lexical document order. -/
def evs_order : List Event :=
  [Event.start ("peripherals"),
   Event.start ("peripheral"),
   Event.start ("name"), Event.text ("zzz"), Event.endTag ("name"),
   Event.start ("baseAddress"), Event.text ("0x1000"), Event.endTag ("baseAddress"),
   Event.start ("size"), Event.text ("4096"), Event.endTag ("size"),
   Event.start ("registers"),
   Event.start ("register"),
   Event.start ("name"), Event.text ("rb"), Event.endTag ("name"),
   Event.start ("addressOffset"), Event.text ("4"), Event.endTag ("addressOffset"),
   Event.start ("fields"),
   Event.start ("field"),
   Event.start ("name"), Event.text ("fy"), Event.endTag ("name"),
   Event.start ("lsb"), Event.text ("4"), Event.endTag ("lsb"),
   Event.start ("msb"), Event.text ("7"), Event.endTag ("msb"),
   Event.endTag ("field"),
   Event.start ("field"),
   Event.start ("name"), Event.text ("fx"), Event.endTag ("name"),
   Event.start ("lsb"), Event.text ("0"), Event.endTag ("lsb"),
   Event.start ("msb"), Event.text ("3"), Event.endTag ("msb"),
   Event.endTag ("field"),
   Event.endTag ("fields"),
   Event.endTag ("register"),
   Event.start ("register"),
   Event.start ("name"), Event.text ("ra"), Event.endTag ("name"),
   Event.start ("addressOffset"), Event.text ("8"), Event.endTag ("addressOffset"),
   Event.endTag ("register"),
   Event.endTag ("registers"),
   Event.endTag ("peripheral"),
   Event.start ("peripheral"),
   Event.start ("name"), Event.text ("aaa"), Event.endTag ("name"),
   Event.start ("baseAddress"), Event.text ("0x2000"), Event.endTag ("baseAddress"),
   Event.start ("size"), Event.text ("4096"), Event.endTag ("size"),
   Event.endTag ("peripheral"),
   Event.endTag ("peripherals"),
   Event.start ("vendorExtensions"),
   Event.start ("memoryRegions"),
   Event.start ("memoryRegion"),
   Event.start ("name"), Event.text ("mz"), Event.endTag ("name"),
   Event.start ("baseAddress"), Event.text ("0x40000000"), Event.endTag ("baseAddress"),
   Event.start ("size"), Event.text ("65536"), Event.endTag ("size"),
   Event.endTag ("memoryRegion"),
   Event.start ("memoryRegion"),
   Event.start ("name"), Event.text ("ma"), Event.endTag ("name"),
   Event.start ("baseAddress"), Event.text ("0x50000000"), Event.endTag ("baseAddress"),
   Event.start ("size"), Event.text ("1024"), Event.endTag ("size"),
   Event.endTag ("memoryRegion"),
   Event.endTag ("memoryRegions"),
   Event.endTag ("vendorExtensions")]

/-- First register of the `zzz` peripheral of `evs_order`. -/
def reg_rb : Register :=
  { name := "rb", offset := 4, description := none,
    fields := [{ name := "fy", lsb := 4, msb := 7 }, { name := "fx", lsb := 0, msb := 3 }] }

/-- First peripheral of `evs_order`. -/
def per_zzz : Peripheral :=
  { name := "zzz", base := 4096, size := 4096, interrupt := [],
    registers := [reg_rb, { name := "ra", offset := 8, description := none, fields := [] }] }

/-- The description `evs_order` parses to. -/
def desc_order : Description :=
  { peripherals :=
      [per_zzz,
       { name := "aaa", base := 8192, size := 4096, interrupt := [], registers := [] }],
    memory_regions :=
      [{ name := "mz", base := 1073741824, size := 65536 },
       { name := "ma", base := 1342177280, size := 1024 }] }

/-! ## Helper lemmas about the numeric literal parser -/

/-- Digits `0-9`, lower and upper letters below the radix are the valid
digits. -/
def valid_digits (radix : Nat) (cs : List Char) : Prop :=
  ∀ c ∈ cs, (to_digit c radix).isSome

instance (radix : Nat) (cs : List Char) : Decidable (valid_digits radix cs) := by
  unfold valid_digits; infer_instance

theorem to_digit_zero {base : Nat} (h : 1 ≤ base) : to_digit '0' base = some 0 := by
  unfold to_digit
  rw [if_pos (by decide : ('0' ≤ '0' ∧ '0' ≤ '9'))]
  simp only [show ('0').toNat - 48 = 0 from rfl]
  rw [if_pos (by omega : 0 < base)]

theorem spec_digits_value_le {base : Nat} (h : 1 ≤ base) :
    ∀ (cs : List Char) (acc : Nat), acc ≤ spec_digits_value base acc cs := by
  intro cs
  induction cs with
  | nil => intro acc; simp [spec_digits_value]
  | cons c t ih =>
    intro acc
    have h1 : acc ≤ acc * base + (to_digit c base).getD 0 := by nlinarith
    exact le_trans h1 (ih _)

theorem from_str_radix_core_eq {base : Nat} (h : 1 ≤ base) :
    ∀ (cs : List Char) (acc : Nat), valid_digits base cs →
      spec_digits_value base acc cs ≤ USIZE_MAX →
      from_str_radix_core base cs acc = some (spec_digits_value base acc cs) := by
  intro cs
  induction cs with
  | nil => intro acc _ _; rfl
  | cons c t ih =>
    intro acc hv hle
    obtain ⟨d, hd⟩ := Option.isSome_iff_exists.mp (hv c (List.mem_cons_self c t))
    have hspec : spec_digits_value base acc (c :: t) =
        spec_digits_value base (acc * base + d) t := by
      simp [spec_digits_value, hd]
    have hv2 : valid_digits base t := fun x hx => hv x (List.mem_cons_of_mem c hx)
    have hbound : acc * base + d ≤ USIZE_MAX :=
      le_trans (spec_digits_value_le h t (acc * base + d)) (hspec ▸ hle)
    unfold from_str_radix_core
    rw [hd]
    simp only
    rw [if_neg (by omega)]
    rw [ih (acc * base + d) hv2 (hspec ▸ hle), hspec]

theorem spec_digits_value_trimZeros {base : Nat} (h : 1 ≤ base) :
    ∀ cs : List Char, spec_digits_value base 0 (trimStartZeros cs) = spec_digits_value base 0 cs := by
  intro cs
  induction cs with
  | nil => rfl
  | cons c t ih =>
    by_cases hc : c = '0'
    · subst hc
      rw [show trimStartZeros ('0' :: t) = trimStartZeros t from by simp [trimStartZeros]]
      rw [ih]
      simp [spec_digits_value, to_digit_zero h]
    · rw [show trimStartZeros (c :: t) = c :: t from by simp [trimStartZeros, hc]]

theorem trimStartZeros_suffix : ∀ cs : List Char, (trimStartZeros cs).IsSuffix cs := by
  intro cs
  induction cs with
  | nil => exact List.nil_suffix
  | cons c t ih =>
    by_cases hc : c = '0'
    · subst hc
      rw [show trimStartZeros ('0' :: t) = trimStartZeros t from by simp [trimStartZeros]]
      exact ih.trans (List.suffix_cons '0' t)
    · rw [show trimStartZeros (c :: t) = c :: t from by simp [trimStartZeros, hc]]

theorem trimStartMatches2_of_not (c1 c2 : Char) :
    ∀ cs : List Char, ¬ startsWith2 c1 c2 cs = true → trimStartMatches2 c1 c2 cs = cs := by
  intro cs hns
  match cs with
  | [] => rfl
  | [a] => rfl
  | a :: b :: t =>
    unfold trimStartMatches2
    rw [if_neg]
    intro ⟨ha, hb⟩
    exact hns (by simp [startsWith2, ha, hb])

theorem startsWith2_shape {c1 c2 : Char} :
    ∀ {cs : List Char}, startsWith2 c1 c2 cs = true → ∃ t, cs = c1 :: c2 :: t := by
  intro cs hs
  match cs with
  | [] => exact absurd hs (by simp [startsWith2])
  | [a] => exact absurd hs (by simp [startsWith2])
  | a :: b :: t =>
    simp only [startsWith2, Bool.and_eq_true, decide_eq_true_eq] at hs
    exact ⟨t, by rw [hs.1, hs.2]⟩

/-- Nonempty all-valid digit strings are consumed whole by
`from_str_radix` (their head can be neither a sign nor a stray
prefix). -/
theorem from_str_radix_valid {base : Nat} (h : 1 ≤ base)
    (hplus : to_digit '+' base = none) (hminus : to_digit '-' base = none) :
    ∀ cs : List Char, cs ≠ [] → valid_digits base cs →
      spec_digits_value base 0 cs ≤ USIZE_MAX →
      from_str_radix cs base = some (spec_digits_value base 0 cs) := by
  intro cs hne hv hle
  match cs with
  | [] => exact absurd rfl hne
  | c :: t =>
    have hc := hv c (List.mem_cons_self c t)
    have hcp : ¬ c = '+' := fun hcc => by rw [hcc, hplus] at hc; exact absurd hc (by simp)
    have hcm : ¬ c = '-' := fun hcc => by rw [hcc, hminus] at hc; exact absurd hc (by simp)
    show (if c = '+' then (if t = ([] : List Char) then none else from_str_radix_core base t 0)
      else if c = '-' then none else from_str_radix_core base (c :: t) 0) =
        some (spec_digits_value base 0 (c :: t))
    rw [if_neg hcp, if_neg hcm]
    exact from_str_radix_core_eq h (c :: t) 0 hv hle

/-- Valid digit strings are left untouched by the repeated prefix
stripping, because the second prefix character is never a valid
digit. -/
theorem trimStartMatches2_valid {base : Nat} {c1 c2 : Char} (h2 : to_digit c2 base = none) :
    ∀ ds : List Char, valid_digits base ds → trimStartMatches2 c1 c2 ds = ds := by
  intro ds hv
  apply trimStartMatches2_of_not
  intro hs
  obtain ⟨t, rfl⟩ := startsWith2_shape hs
  have hmem := hv c2 (by simp)
  rw [h2] at hmem
  simp at hmem

theorem get_base_hex_x {ds : List Char} (hv : valid_digits 16 ds) :
    get_base ('0' :: 'x' :: ds) = (ds, 16) := by
  unfold get_base
  rw [if_pos (by simp [startsWith2])]
  rw [show trimStartMatches2 '0' 'x' ('0' :: 'x' :: ds) = trimStartMatches2 '0' 'x' ds from by
    simp [trimStartMatches2]]
  rw [trimStartMatches2_valid (by decide) ds hv]

theorem get_base_hex_X {ds : List Char} (hv : valid_digits 16 ds) :
    get_base ('0' :: 'X' :: ds) = (ds, 16) := by
  unfold get_base
  rw [if_neg (by simp [startsWith2]), if_pos (by simp [startsWith2])]
  rw [show trimStartMatches2 '0' 'X' ('0' :: 'X' :: ds) = trimStartMatches2 '0' 'X' ds from by
    simp [trimStartMatches2]]
  rw [trimStartMatches2_valid (by decide) ds hv]

theorem get_base_bin_b {ds : List Char} (hv : valid_digits 2 ds) :
    get_base ('0' :: 'b' :: ds) = (ds, 2) := by
  unfold get_base
  rw [if_neg (by simp [startsWith2]), if_neg (by simp [startsWith2]),
    if_pos (by simp [startsWith2])]
  rw [show trimStartMatches2 '0' 'b' ('0' :: 'b' :: ds) = trimStartMatches2 '0' 'b' ds from by
    simp [trimStartMatches2]]
  rw [trimStartMatches2_valid (by decide) ds hv]

theorem get_base_bin_B {ds : List Char} (hv : valid_digits 2 ds) :
    get_base ('0' :: 'B' :: ds) = (ds, 2) := by
  unfold get_base
  rw [if_neg (by simp [startsWith2]), if_neg (by simp [startsWith2]),
    if_neg (by simp [startsWith2]), if_pos (by simp [startsWith2])]
  rw [show trimStartMatches2 '0' 'B' ('0' :: 'B' :: ds) = trimStartMatches2 '0' 'B' ds from by
    simp [trimStartMatches2]]
  rw [trimStartMatches2_valid (by decide) ds hv]

theorem get_base_octal {d : Char} (ds : List Char)
    (hx : d ≠ 'x') (hX : d ≠ 'X') (hb : d ≠ 'b') (hB : d ≠ 'B') :
    get_base ('0' :: d :: ds) = (trimStartZeros (d :: ds), 8) := by
  unfold get_base
  rw [if_neg (by simp [startsWith2, hx]), if_neg (by simp [startsWith2, hX]),
    if_neg (by simp [startsWith2, hb]), if_neg (by simp [startsWith2, hB]),
    if_pos (by simp)]
  rw [show trimStartZeros ('0' :: d :: ds) = trimStartZeros (d :: ds) from by
    simp [trimStartZeros]]

theorem get_base_decimal {ds : List Char} (hne : ds ≠ []) (hh : ds.head? ≠ some '0') :
    get_base ds = (ds, 10) := by
  match ds with
  | [] => exact absurd rfl hne
  | c :: t =>
    have hc : ¬ c = '0' := fun hcc => hh (by rw [hcc]; rfl)
    unfold get_base
    rw [if_neg, if_neg, if_neg, if_neg, if_neg]
    · intro ⟨h1, _⟩
      rw [List.head?] at h1
      exact hc (by injection h1)
    all_goals
      intro hs
      obtain ⟨t2, heq⟩ := startsWith2_shape hs
      injection heq with heq1 _
      exact hc heq1

/-- Evaluation of `parse_usize` through a computed `get_base` result on
an all-valid digit string. -/
theorem parse_usize_spec {v ds : List Char} {base : Nat}
    (hgb : get_base v = (ds, base)) (h1 : 1 ≤ base)
    (hplus : to_digit '+' base = none) (hminus : to_digit '-' base = none)
    (hne : ds ≠ []) (hv : valid_digits base ds)
    (hle : spec_digits_value base 0 ds ≤ USIZE_MAX) :
    parse_usize v = Except.ok (spec_digits_value base 0 ds) := by
  unfold parse_usize
  rw [hgb]
  show (match from_str_radix ds base with
    | some n => Except.ok n
    | none => Except.error ParseError.ParseIntError) = Except.ok (spec_digits_value base 0 ds)
  rw [from_str_radix_valid h1 hplus hminus ds hne hv hle]

theorem trimStartZeros_replicate : ∀ k : Nat, trimStartZeros (List.replicate k '0') = [] := by
  intro k
  induction k with
  | zero => rfl
  | succ n ih => simp [List.replicate, trimStartZeros, ih]

/-- The head of an all-valid digit string cannot be a character that is
not a digit for the base. -/
theorem valid_digits_head_ne {base : Nat} {d : Char} {ds : List Char}
    (hv : valid_digits base (d :: ds)) {c : Char} (hc : to_digit c base = none) : d ≠ c := by
  intro hdc
  have hmem := hv d (List.mem_cons_self d ds)
  rw [hdc, hc] at hmem
  simp at hmem

/-! ## Claims C4 and C5: the numeric literal parser -/

/-- Claim C4, counterexample.  The claim states that for a literal with
a leading zero (and no hex/binary prefix) exactly one leading zero is
stripped: on `"0010"` that would leave digits `"010"`, but `get_base`
strips every leading zero and leaves `"10"`; and the claim states that
a leading zero followed by further digits, possibly themselves zeros,
parses to the octal value of the digits after removing one zero: on
`"00"` that value would be `0`, but the code strips both zeros and
`from_str_radix` fails on the empty digit string with
`ParseIntError`. -/
theorem claim_C4_counterexample :
    get_base ['0', '0', '1', '0'] = (['1', '0'], 8) ∧
    get_base ['0', '0', '1', '0'] ≠ (['0', '1', '0'], 8) ∧
    parse_usize ['0', '0'] = Except.error ParseError.ParseIntError := by
  refine ⟨by decide, by decide, by rfl⟩

/-- Claim C4, amended: for every numeric literal token that begins with
`'0'`, is not literally `"0"`, and has no hex/binary prefix, the parser
selects base 8 and strips ALL leading zeros (not exactly one); a token
with at least one nonzero digit still parses to the octal value of its
digits, while a token consisting solely of two or more zeros fails with
`ParseIntError`. -/
theorem claim_C4_octal_strips_all_zeros :
    (∀ (d : Char) (ds : List Char), d ≠ 'x' → d ≠ 'X' → d ≠ 'b' → d ≠ 'B' →
      get_base ('0' :: d :: ds) = (trimStartZeros (d :: ds), 8)) ∧
    (∀ (d : Char) (ds : List Char), valid_digits 8 (d :: ds) →
      trimStartZeros (d :: ds) ≠ [] →
      spec_digits_value 8 0 (d :: ds) ≤ USIZE_MAX →
      parse_usize ('0' :: d :: ds) = Except.ok (spec_digits_value 8 0 (d :: ds))) ∧
    (∀ n : Nat, 2 ≤ n →
      parse_usize (List.replicate n '0') = Except.error ParseError.ParseIntError) := by
  refine ⟨fun d ds hx hX hb hB => get_base_octal ds hx hX hb hB, ?_, ?_⟩
  · intro d ds hv hne hle
    have hgb := get_base_octal ds (valid_digits_head_ne hv (by decide))
      (valid_digits_head_ne hv (by decide)) (valid_digits_head_ne hv (by decide))
      (valid_digits_head_ne hv (by decide))
    have hsub : valid_digits 8 (trimStartZeros (d :: ds)) := fun c hc =>
      hv c ((trimStartZeros_suffix (d :: ds)).subset hc)
    have hval := spec_digits_value_trimZeros (by decide : (1:Nat) ≤ 8) (d :: ds)
    rw [show spec_digits_value 8 0 (d :: ds) = spec_digits_value 8 0 (trimStartZeros (d :: ds)) from hval.symm]
    exact parse_usize_spec hgb (by decide) (by decide) (by decide) hne hsub (hval ▸ hle)
  · intro n hn
    obtain ⟨m, rfl⟩ : ∃ m, n = m + 2 := ⟨n - 2, by omega⟩
    have hshape : List.replicate (m + 2) '0' = '0' :: '0' :: List.replicate m '0' := by
      simp [List.replicate]
    rw [hshape]
    have hgb := @get_base_octal '0' (List.replicate m '0')
      (by decide) (by decide) (by decide) (by decide)
    rw [show trimStartZeros ('0' :: List.replicate m '0') = [] from by
      have h := trimStartZeros_replicate (m + 1)
      simpa [List.replicate] using h] at hgb
    unfold parse_usize
    rw [hgb]
    rfl

/-- Claim C4, witness: `"0010"` (all zeros stripped, value 8 in octal)
and `"000"` (three zeros, `ParseIntError`). -/
theorem claim_C4_octal_strips_all_zeros_witness :
    parse_usize ['0', '0', '1', '0'] = Except.ok (spec_digits_value 8 0 ['0', '1', '0']) ∧
    spec_digits_value 8 0 ['0', '1', '0'] = 8 ∧
    parse_usize ['0', '0', '0'] = Except.error ParseError.ParseIntError := by
  refine ⟨claim_C4_octal_strips_all_zeros.2.1 '0' ['1', '0'] (by decide) (by decide) (by decide),
    by rfl,
    claim_C4_octal_strips_all_zeros.2.2 3 (by decide)⟩

/-- Claim C5: for valid literals with prefix `0x`/`0X`/`0b`/`0B`, a
single leading zero (read strictly: the character after the leading
zero is itself a nonzero digit), or none, the parser selects base
16/16/2/2/8/10 and returns the exact intended value; `"0"` itself goes
through base 10 and parses to 0.  Valid means: at least one digit, all
digits valid for the selected base, and the value within `usize`. -/
theorem claim_C5_base_selection :
    (∀ ds : List Char, ds ≠ [] → valid_digits 16 ds →
      spec_digits_value 16 0 ds ≤ USIZE_MAX →
      parse_usize ('0' :: 'x' :: ds) = Except.ok (spec_digits_value 16 0 ds)) ∧
    (∀ ds : List Char, ds ≠ [] → valid_digits 16 ds →
      spec_digits_value 16 0 ds ≤ USIZE_MAX →
      parse_usize ('0' :: 'X' :: ds) = Except.ok (spec_digits_value 16 0 ds)) ∧
    (∀ ds : List Char, ds ≠ [] → valid_digits 2 ds →
      spec_digits_value 2 0 ds ≤ USIZE_MAX →
      parse_usize ('0' :: 'b' :: ds) = Except.ok (spec_digits_value 2 0 ds)) ∧
    (∀ ds : List Char, ds ≠ [] → valid_digits 2 ds →
      spec_digits_value 2 0 ds ≤ USIZE_MAX →
      parse_usize ('0' :: 'B' :: ds) = Except.ok (spec_digits_value 2 0 ds)) ∧
    (∀ (d : Char) (ds : List Char), d ≠ '0' → valid_digits 8 (d :: ds) →
      spec_digits_value 8 0 (d :: ds) ≤ USIZE_MAX →
      parse_usize ('0' :: d :: ds) = Except.ok (spec_digits_value 8 0 (d :: ds))) ∧
    (∀ ds : List Char, ds ≠ [] → valid_digits 10 ds →
      (ds.head? ≠ some '0' ∨ ds = ['0']) →
      spec_digits_value 10 0 ds ≤ USIZE_MAX →
      parse_usize ds = Except.ok (spec_digits_value 10 0 ds)) := by
  refine ⟨?_, ?_, ?_, ?_, ?_, ?_⟩
  · intro ds hne hv hle
    exact parse_usize_spec (get_base_hex_x hv) (by decide) (by decide) (by decide) hne hv hle
  · intro ds hne hv hle
    exact parse_usize_spec (get_base_hex_X hv) (by decide) (by decide) (by decide) hne hv hle
  · intro ds hne hv hle
    exact parse_usize_spec (get_base_bin_b hv) (by decide) (by decide) (by decide) hne hv hle
  · intro ds hne hv hle
    exact parse_usize_spec (get_base_bin_B hv) (by decide) (by decide) (by decide) hne hv hle
  · intro d ds hd0 hv hle
    have hgb := get_base_octal ds (valid_digits_head_ne hv (by decide))
      (valid_digits_head_ne hv (by decide)) (valid_digits_head_ne hv (by decide))
      (valid_digits_head_ne hv (by decide))
    rw [show trimStartZeros (d :: ds) = d :: ds from by simp [trimStartZeros, hd0]] at hgb
    exact parse_usize_spec hgb (by decide) (by decide) (by decide) (by simp) hv hle
  · intro ds hne hv hh hle
    rcases hh with hh | hh
    · exact parse_usize_spec (get_base_decimal hne hh) (by decide) (by decide) (by decide) hne hv hle
    · subst hh
      rfl

/-- Claim C5, witness: the spec examples, plus the upper-case prefixes.
`"0x1A"` is 26, `"0b101"` is 5, `"017"` is 15, `"42"` is 42 and `"0"`
is 0. -/
theorem claim_C5_base_selection_witness :
    parse_usize ['0', 'x', '1', 'A'] = Except.ok (spec_digits_value 16 0 ['1', 'A']) ∧
    spec_digits_value 16 0 ['1', 'A'] = 26 ∧
    parse_usize ['0', 'X', '1', 'A'] = Except.ok (spec_digits_value 16 0 ['1', 'A']) ∧
    parse_usize ['0', 'b', '1', '0', '1'] = Except.ok (spec_digits_value 2 0 ['1', '0', '1']) ∧
    spec_digits_value 2 0 ['1', '0', '1'] = 5 ∧
    parse_usize ['0', 'B', '1', '0', '1'] = Except.ok (spec_digits_value 2 0 ['1', '0', '1']) ∧
    parse_usize ['0', '1', '7'] = Except.ok (spec_digits_value 8 0 ['1', '7']) ∧
    spec_digits_value 8 0 ['1', '7'] = 15 ∧
    parse_usize ['4', '2'] = Except.ok (spec_digits_value 10 0 ['4', '2']) ∧
    spec_digits_value 10 0 ['4', '2'] = 42 ∧
    parse_usize ['0'] = Except.ok (spec_digits_value 10 0 ['0']) ∧
    spec_digits_value 10 0 ['0'] = 0 := by
  refine ⟨claim_C5_base_selection.1 ['1', 'A'] (by decide) (by decide) (by decide), by rfl,
    claim_C5_base_selection.2.1 ['1', 'A'] (by decide) (by decide) (by decide),
    claim_C5_base_selection.2.2.1 ['1', '0', '1'] (by decide) (by decide) (by decide), by rfl,
    claim_C5_base_selection.2.2.2.1 ['1', '0', '1'] (by decide) (by decide) (by decide),
    claim_C5_base_selection.2.2.2.2.1 '1' ['7'] (by decide) (by decide) (by decide), by rfl,
    claim_C5_base_selection.2.2.2.2.2 ['4', '2'] (by decide) (by decide) (Or.inl (by decide)) (by decide), by rfl,
    claim_C5_base_selection.2.2.2.2.2 ['0'] (by decide) (by decide) (Or.inr rfl) (by decide), by rfl⟩

/-! ## Claim C6: field constant width and offset -/

/-- Claim C6: for every field with `msb >= lsb` the emitted field
constant has width argument `msb - lsb + 1` and offset argument `lsb`
(the source computes the width as `field.msb + 1 - field.lsb`, equal
under the hypothesis). -/
theorem claim_C6_field_width_offset :
    ∀ (r : Register) (f : Field), f.lsb ≤ f.msb →
      field_const_line r f =
        "        pub const " ++ field_const_name r f ++ ": crate::Field = crate::Field::new(" ++
        toString (f.msb - f.lsb + 1) ++ ", " ++ toString f.lsb ++ ", " ++ r.name ++ ");\n" := by
  intro r f h
  unfold field_const_line
  rw [show f.msb + 1 - f.lsb = f.msb - f.lsb + 1 from by omega]

/-- Claim C6, witness: the spec scenario, register `CTRL` at offset 4
with field `EN` spanning bits 2-2: width 1, offset 2. -/
theorem claim_C6_field_width_offset_witness :
    field_const_line { name := "CTRL", offset := 4, description := none, fields := [] }
      { name := "EN", lsb := 2, msb := 2 } =
      "        pub const CTRL_EN: crate::Field = crate::Field::new(1, 2, CTRL);\n" := by
  rw [claim_C6_field_width_offset { name := "CTRL", offset := 4, description := none, fields := [] }
    { name := "EN", lsb := 2, msb := 2 } (by decide)]
  rfl

/-! ## Claim C2: casing of field constant names -/

/-- Claim C2, evidence of the code bug.  For the lower-case register
name `ctrl`: the field constant is declared as `ctrl_EN` (raw register
name) and its constructor references `ctrl`, while the register
constant itself is declared upper-cased as `CTRL` and the generated
self-check test block references the field as `CTRL_EN`.  The generated
module therefore contains dangling references whenever a register name
is not already upper-case, contradicting the emitted test block the
code itself produces. -/
theorem claim_C2_casing_bug :
    field_const_name reg_ctrl fld_en = "ctrl_EN" ∧
    tests_field_name reg_ctrl fld_en = "CTRL_EN" ∧
    field_const_name reg_ctrl fld_en ≠ tests_field_name reg_ctrl fld_en ∧
    field_const_line reg_ctrl fld_en =
      "        pub const ctrl_EN: crate::Field = crate::Field::new(1, 0, ctrl);\n" ∧
    register_const_line reg_ctrl =
      "        pub const CTRL: crate::Register = crate::Register::new(0);\n" := by
  refine ⟨by rfl, by rfl, by decide, by rfl, by rfl⟩

/-! ## Claims C3 and C9: emitted constants and ordering -/

/-- Concatenation of the renderings of a list of items, in list
order. -/
def emit_concat {α : Type} (f : α → String) : List α → String
  | [] => ""
  | x :: t => f x ++ emit_concat f t

/-- The accumulator-style `for` loops of the emitter produce exactly
the concatenation of the per-item renderings in list order. -/
theorem foldl_append_eq {α : Type} (f : α → String) :
    ∀ (l : List α) (acc : String),
      List.foldl (fun a x => a ++ f x) acc l = acc ++ emit_concat f l := by
  intro l
  induction l with
  | nil =>
    intro acc
    show acc = acc ++ ""
    rw [String.append_empty]
  | cons x t ih =>
    intro acc
    show List.foldl (fun a x => a ++ f x) (acc ++ f x) t = acc ++ (f x ++ emit_concat f t)
    rw [ih (acc ++ f x), String.append_assoc]

/-- Claim C3, counterexample: the emitted names use the region name
verbatim, not upper-cased; for the region named `sram` the constants
are `HW_sram_MEM` and `HW_sram_MEM_LEN`, not `HW_SRAM_MEM` and
`HW_SRAM_MEM_LEN`. -/
theorem claim_C3_counterexample :
    print_memory_regions [mr_sram] =
      "// Physical base addresses of memory regions\n" ++
      "pub const HW_sram_MEM:     usize = 0x40020000;\n" ++
      "pub const HW_sram_MEM_LEN: usize = 32768;\n" ++ "\n" ∧
    print_memory_regions [mr_sram] ≠
      "// Physical base addresses of memory regions\n" ++
      "pub const HW_SRAM_MEM:     usize = 0x40020000;\n" ++
      "pub const HW_SRAM_MEM_LEN: usize = 32768;\n" ++ "\n" := by
  refine ⟨by rfl, by decide⟩

/-- Claim C3, amended: for every `MemoryRegion`, in document order,
exactly two constants are emitted, `HW_<name>_MEM` (base, hex) and
`HW_<name>_MEM_LEN` (size, decimal), with the region name taken
verbatim (no upper-casing). -/
theorem claim_C3_memory_region_constants :
    ∀ regions : List MemoryRegion,
      print_memory_regions regions =
        "// Physical base addresses of memory regions\n" ++
          emit_concat memory_region_lines regions ++ "\n" ∧
      ∀ r : MemoryRegion,
        memory_region_lines r =
          "pub const HW_" ++ r.name ++ "_MEM:     usize = 0x" ++ hex8 r.base ++ ";\n" ++
          "pub const HW_" ++ r.name ++ "_MEM_LEN: usize = " ++ toString r.size ++ ";\n" := by
  intro regions
  constructor
  · unfold print_memory_regions
    rw [foldl_append_eq memory_region_lines regions (""), String.empty_append]
  · intro r
    rfl

/-- Claim C9: emission is order-stable.  Each emitter loop renders its
list as the concatenation of per-item renderings in list order (never
sorting), and the parser builds those lists in document order, shown on
a document whose peripherals, registers, fields and memory regions all
appear in anti-lexical order. -/
theorem claim_C9_document_order_preserved :
    (∀ regions : List MemoryRegion,
      print_memory_regions regions =
        "// Physical base addresses of memory regions\n" ++
          emit_concat memory_region_lines regions ++ "\n") ∧
    (∀ ps : List Peripheral,
      print_peripherals ps =
        "// Physical base addresses of registers\n" ++
          emit_concat periph_base_line ps ++ "\n" ++ "pub mod utra \x7b\n" ++
          emit_concat periph_mod_block ps ++ "\x7d\n") ∧
    (∀ p : Peripheral,
      periph_mod_block p =
        "\n" ++ "    pub mod " ++ to_lowercase p.name ++ " \x7b\n" ++
          emit_concat register_block p.registers ++ "\n" ++
          emit_concat interrupt_line p.interrupt ++ "    \x7d\n") ∧
    (∀ r : Register,
      register_block r =
        "\n" ++
          (match r.description with
           | some d => "        /// " ++ d ++ "\n"
           | none => "") ++
          register_const_line r ++ emit_concat (field_const_line r) r.fields) ∧
    parse_svd 200 evs_order = Res.ok desc_order [] ∧
    desc_order.peripherals.map (fun p => p.name) = ["zzz", "aaa"] ∧
    desc_order.peripherals.map (fun p => p.registers.map (fun r => r.name)) = [["rb", "ra"], []] ∧
    desc_order.peripherals.map (fun p => p.registers.map (fun r => r.fields.map (fun f => f.name))) =
      [[["fy", "fx"], []], []] ∧
    desc_order.memory_regions.map (fun m => m.name) = ["mz", "ma"] := by
  refine ⟨?_, ?_, ?_, ?_, by rfl, by rfl, by rfl, by rfl, by rfl⟩
  · intro regions
    unfold print_memory_regions
    rw [foldl_append_eq memory_region_lines regions (""), String.empty_append]
  · intro ps
    unfold print_peripherals
    rw [foldl_append_eq periph_base_line ps (""), foldl_append_eq periph_mod_block ps (""),
      String.empty_append, String.empty_append]
  · intro p
    unfold periph_mod_block
    rw [foldl_append_eq register_block p.registers (""), foldl_append_eq interrupt_line p.interrupt (""),
      String.empty_append, String.empty_append]
  · intro r
    unfold register_block
    rw [foldl_append_eq (field_const_line r) r.fields (""), String.empty_append]

/-! ## Claim C8: no output on parse errors -/

/-- Claim C8: whenever parsing fails with a typed error, `generate`
returns that same error and leaves the destination sink exactly as it
was; the source parses completely (`let description = parse_svd(src)?`)
before the first write. -/
theorem claim_C8_error_means_no_output :
    ∀ (fuel : Nat) (evs : List Event) (e : ParseError) (dest : String),
      parse_svd fuel evs = Res.err e → generate fuel evs dest = (GenRes.err e, dest) := by
  intro fuel evs e dest h
  unfold generate
  rw [h]

/-- Claim C8, witness: a document whose `<peripheral>` closes with no
children fails with `MissingValue` and the sink keeps its prior
contents. -/
theorem claim_C8_error_means_no_output_witness :
    parse_svd 50 evs_missing_peripheral = Res.err ParseError.MissingValue ∧
    generate 50 evs_missing_peripheral ("prior sink contents") =
      (GenRes.err ParseError.MissingValue, "prior sink contents") := by
  refine ⟨by rfl, claim_C8_error_means_no_output 50 evs_missing_peripheral
    ParseError.MissingValue ("prior sink contents") (by rfl)⟩

/-! ## Claim C1: failure propagation and panics -/

/-- Claim C1, counterexample.  An unexpected `<bogus>` start tag inside
`<fields>` does NOT surface as a typed failure value: `generate_fields`
hits its `panic!` arm and the whole conversion aborts by unwinding, so
`parse_svd` never returns any of the five `ParseError` values. -/
theorem claim_C1_counterexample :
    parse_svd 10 evs_unexpected_in_fields = Res.panic ∧
    parse_svd 10 evs_unexpected_in_fields ≠ Res.err ParseError.UnexpectedTag ∧
    parse_svd 10 evs_unexpected_in_fields ≠ Res.err ParseError.MissingValue ∧
    parse_svd 10 evs_unexpected_in_fields ≠ Res.err ParseError.ParseIntError ∧
    parse_svd 10 evs_unexpected_in_fields ≠ Res.err ParseError.NonUTF8 ∧
    parse_svd 10 evs_unexpected_in_fields ≠ Res.err ParseError.WriteError := by
  refine ⟨by rfl, by decide, by decide, by decide, by decide, by decide⟩

/-- Claim C1, amended: typed failure values produced inside a child
routine are propagated unchanged through every enclosing container
routine up to the caller of `parse_svd`; panics propagate likewise; but
an unexpected start tag inside a container such as `<fields>` and a
tokenizer error at the root are surfaced by `panic!`, not as typed
values. -/
theorem claim_C1_error_propagation :
    (∀ (fuel : Nat) (rest : List Event) (e : ParseError) (flds : List Field),
      generate_field fuel rest = Res.err e →
      generate_fields (fuel + 1) (Event.start ("field") :: rest) flds = Res.err e) ∧
    (∀ (fuel : Nat) (rest : List Event) (e : ParseError) (regs : List Register),
      generate_register fuel rest = Res.err e →
      generate_registers (fuel + 1) (Event.start ("register") :: rest) regs = Res.err e) ∧
    (∀ (fuel : Nat) (rest : List Event) (e : ParseError) (ps : List Peripheral),
      generate_peripheral fuel rest = Res.err e →
      generate_peripherals (fuel + 1) (Event.start ("peripheral") :: rest) ps = Res.err e) ∧
    (∀ (fuel : Nat) (rest : List Event) (e : ParseError),
      generate_peripherals fuel rest [] = Res.err e →
      parse_svd (fuel + 1) (Event.start ("peripherals") :: rest) = Res.err e) ∧
    (∀ (fuel : Nat) (rest : List Event) (e : ParseError) (regions : List MemoryRegion),
      generate_memory_region fuel rest = Res.err e →
      parse_memory_regions (fuel + 1) (Event.start ("memoryRegion") :: rest) regions = Res.err e) ∧
    (∀ (fuel : Nat) (rest : List Event) (flds : List Field),
      generate_field fuel rest = Res.panic →
      generate_fields (fuel + 1) (Event.start ("field") :: rest) flds = Res.panic) ∧
    (∀ (fuel : Nat) (rest : List Event) (tag : String) (flds : List Field),
      ¬ tag = "field" →
      generate_fields (fuel + 1) (Event.start tag :: rest) flds = Res.panic) ∧
    (∀ (fuel : Nat) (rest : List Event),
      parse_svd (fuel + 1) (Event.tokErr :: rest) = Res.panic) := by
  refine ⟨?_, ?_, ?_, ?_, ?_, ?_, ?_, ?_⟩
  · intro fuel rest e flds h
    simp only [generate_fields, read]
    rw [if_pos trivial, h]
  · intro fuel rest e regs h
    simp only [generate_registers, read]
    rw [if_pos trivial, h]
  · intro fuel rest e ps h
    simp only [generate_peripherals, read]
    rw [if_pos trivial, h]
  · intro fuel rest e h
    unfold parse_svd
    simp only [parse_svd_loop, read]
    rw [if_pos trivial, h]
  · intro fuel rest e regions h
    simp only [parse_memory_regions, read]
    rw [if_pos trivial, h]
  · intro fuel rest flds h
    simp only [generate_fields, read]
    rw [if_pos trivial, h]
  · intro fuel rest tag flds h
    simp only [generate_fields, read]
    rw [if_neg h]
  · intro fuel rest
    unfold parse_svd
    simp only [parse_svd_loop, read]

/-- Claim C1, witness: a `<field>` that closes immediately yields
`MissingValue` from `generate_field`, and `generate_fields` forwards
exactly that value; a `<bogus>` child of `<fields>` panics. -/
theorem claim_C1_error_propagation_witness :
    generate_fields 6 (Event.start ("field") :: Event.endTag ("field") :: []) [] =
      Res.err ParseError.MissingValue ∧
    parse_svd 21 (Event.start ("peripherals") :: Event.start ("peripheral") :: Event.endTag ("peripheral") :: []) =
      Res.err ParseError.MissingValue ∧
    generate_fields 6 (Event.start ("bogus") :: []) [] = Res.panic := by
  refine ⟨claim_C1_error_propagation.1 5 (Event.endTag ("field") :: []) ParseError.MissingValue [] (by rfl),
    claim_C1_error_propagation.2.2.2.1 20
      (Event.start ("peripheral") :: Event.endTag ("peripheral") :: []) ParseError.MissingValue (by rfl),
    claim_C1_error_propagation.2.2.2.2.2.2.1 5 [] ("bogus") [] (by decide)⟩

/-! ## Claim C7: missing required values -/

theorem extract_contents_suffix : ∀ {evs rest : List Event} {sv : String},
    extract_contents evs = Res.ok sv rest → rest.IsSuffix evs := by
  intro evs rest sv h
  match evs with
  | [] => simp [extract_contents, read] at h
  | e :: t =>
    cases e <;> simp [extract_contents, read] at h
    exact h.2 ▸ List.suffix_cons _ t

theorem generate_field_loop_suffix : ∀ (fuel : Nat) (evs : List Event)
    (nm : Option String) (lsb msb : Option Nat) {f : Field} {rest : List Event},
    generate_field_loop fuel evs nm lsb msb = Res.ok f rest → rest.IsSuffix evs := by
  intro fuel
  induction fuel with
  | zero =>
    intro evs nm lsb msb f rest h
    simp [generate_field_loop] at h
  | succ n ih =>
    intro evs nm lsb msb f rest h
    match evs with
    | [] =>
      simp only [generate_field_loop, read] at h
      exact ih [] nm lsb msb h
    | e :: t =>
      have hstep : ∀ {nm2 lsb2 msb2}, generate_field_loop n t nm2 lsb2 msb2 = Res.ok f rest →
          rest.IsSuffix (e :: t) := fun h2 => (ih t _ _ _ h2).trans (List.suffix_cons e t)
      cases e <;> simp only [generate_field_loop, read] at h
      case start tag =>
        split at h
        · cases hec : extract_contents t with
          | ok s1 rest2 =>
            rw [hec] at h
            exact ((ih rest2 _ _ _ h).trans (extract_contents_suffix hec)).trans (List.suffix_cons _ t)
          | err e1 => rw [hec] at h; simp at h
          | panic => rw [hec] at h; simp at h
          | hang => rw [hec] at h; simp at h
        · split at h
          · cases hec : extract_contents t with
            | ok s1 rest2 =>
              rw [hec] at h
              dsimp only at h
              cases hp : parse_usize s1.data with
              | ok v =>
                rw [hp] at h
                exact ((ih rest2 _ _ _ h).trans (extract_contents_suffix hec)).trans (List.suffix_cons _ t)
              | error e1 => rw [hp] at h; simp at h
            | err e1 => rw [hec] at h; simp at h
            | panic => rw [hec] at h; simp at h
            | hang => rw [hec] at h; simp at h
          · split at h
            · cases hec : extract_contents t with
              | ok s1 rest2 =>
                rw [hec] at h
                dsimp only at h
                cases hp : parse_usize s1.data with
                | ok v =>
                  rw [hp] at h
                  exact ((ih rest2 _ _ _ h).trans (extract_contents_suffix hec)).trans (List.suffix_cons _ t)
                | error e1 => rw [hp] at h; simp at h
              | err e1 => rw [hec] at h; simp at h
              | panic => rw [hec] at h; simp at h
              | hang => rw [hec] at h; simp at h
            · exact hstep h
      case startBad => simp at h
      case endTag tag =>
        split at h
        · split at h
          · simp at h
          · split at h
            · simp at h
            · split at h
              · simp at h
              · obtain ⟨-, rfl⟩ := Res.ok.inj h
                exact List.suffix_cons _ t
        · exact hstep h
      case text sv => exact hstep h
      case textBad => exact hstep h
      case eof => exact hstep h
      case other => exact hstep h
      case tokErr => simp at h

theorem generate_fields_suffix : ∀ (fuel : Nat) (evs : List Event) (flds : List Field)
    {flds2 : List Field} {rest : List Event},
    generate_fields fuel evs flds = Res.ok flds2 rest → rest.IsSuffix evs := by
  intro fuel
  induction fuel with
  | zero =>
    intro evs flds flds2 rest h
    simp [generate_fields] at h
  | succ n ih =>
    intro evs flds flds2 rest h
    match evs with
    | [] => simp [generate_fields, read] at h
    | e :: t =>
      cases e <;> simp only [generate_fields, read] at h
      case start tag =>
        split at h
        · cases hgf : generate_field n t with
          | ok f1 rest2 =>
            rw [hgf] at h
            exact ((ih rest2 _ h).trans
              (generate_field_loop_suffix n t none none none hgf)).trans (List.suffix_cons _ t)
          | err e1 => rw [hgf] at h; simp at h
          | panic => rw [hgf] at h; simp at h
          | hang => rw [hgf] at h; simp at h
        · simp at h
      case endTag tag =>
        split at h
        · obtain ⟨-, rfl⟩ := Res.ok.inj h
          exact List.suffix_cons _ t
        · simp at h
      case text sv => exact (ih t _ h).trans (List.suffix_cons _ t)
      case textBad => exact (ih t _ h).trans (List.suffix_cons _ t)
      case startBad => simp at h
      case eof => simp at h
      case other => simp at h
      case tokErr => simp at h

/-- If a register element contains no `<addressOffset>` start tag at
all, then whenever the register loop would succeed with the offset
already supplied, the same loop starting with no offset reaches the
closing tag with the offset still unset and fails with
`MissingValue`. -/
theorem register_some_offset_ok_none_missing :
    ∀ (fuel : Nat) (evs : List Event) (nm : Option String) (off : Nat) (flds : List Field)
      {r : Register} {rest : List Event},
      Event.start ("addressOffset") ∉ evs →
      generate_register_loop fuel evs nm (some off) flds = Res.ok r rest →
      generate_register_loop fuel evs nm none flds = Res.err ParseError.MissingValue := by
  intro fuel
  induction fuel with
  | zero =>
    intro evs nm off flds r rest _ h2
    simp [generate_register_loop] at h2
  | succ n ih =>
    intro evs nm off flds r rest hna h2
    match evs with
    | [] =>
      simp only [generate_register_loop, read] at h2 ⊢
      exact ih [] nm off flds (by simp) h2
    | e :: t =>
      have hna_t : Event.start ("addressOffset") ∉ t :=
        fun hm => hna (List.mem_cons_of_mem e hm)
      cases e <;> simp only [generate_register_loop, read] at h2 ⊢
      case start tag =>
        by_cases h1 : tag = "name"
        · rw [if_pos h1] at h2 ⊢
          cases hec : extract_contents t with
          | ok s1 rest2 =>
            rw [hec] at h2
            dsimp only at h2 ⊢
            exact ih rest2 (some s1) off flds
              (fun hm => hna_t ((extract_contents_suffix hec).subset hm)) h2
          | err e1 => rw [hec] at h2; simp at h2
          | panic => rw [hec] at h2; simp at h2
          | hang => rw [hec] at h2; simp at h2
        · rw [if_neg h1] at h2 ⊢
          by_cases hao : tag = "addressOffset"
          · exact absurd (hao ▸ List.mem_cons_self _ t) hna
          · rw [if_neg hao] at h2 ⊢
            by_cases h3 : tag = "fields"
            · rw [if_pos h3] at h2 ⊢
              cases hgf : generate_fields n t flds with
              | ok flds2 rest2 =>
                rw [hgf] at h2
                dsimp only at h2 ⊢
                exact ih rest2 nm off flds2
                  (fun hm => hna_t ((generate_fields_suffix n t flds hgf).subset hm)) h2
              | err e1 => rw [hgf] at h2; simp at h2
              | panic => rw [hgf] at h2; simp at h2
              | hang => rw [hgf] at h2; simp at h2
            · rw [if_neg h3] at h2 ⊢
              exact ih t nm off flds hna_t h2
      case startBad => simp at h2
      case endTag tag =>
        by_cases h1 : tag = "register"
        · rw [if_pos h1] at h2 ⊢
          cases nm with
          | none => simp at h2
          | some nm2 => rfl
        · rw [if_neg h1] at h2 ⊢
          exact ih t nm off flds hna_t h2
      case text sv => exact ih t nm off flds hna_t h2
      case textBad => exact ih t nm off flds hna_t h2
      case eof => exact ih t nm off flds hna_t h2
      case other => exact ih t nm off flds hna_t h2
      case tokErr => simp at h2

/-- Claim C7: a well-formed `<register>` element with no
`<addressOffset>` child fails with `MissingValue` rather than
defaulting the offset (well-formedness is expressed by the same parse
succeeding when an offset is pre-supplied); and each record
construction at its closing tag fails with `MissingValue` whenever a
required scalar was never observed. -/
theorem claim_C7_missing_value :
    (∀ (fuel : Nat) (evs : List Event) (nm : Option String) (off : Nat) (flds : List Field)
      (r : Register) (rest : List Event),
      Event.start ("addressOffset") ∉ evs →
      generate_register_loop fuel evs nm (some off) flds = Res.ok r rest →
      generate_register_loop fuel evs nm none flds = Res.err ParseError.MissingValue) ∧
    (∀ (fuel : Nat) (rest : List Event) (nm : Option String) (lsb msb : Option Nat),
      nm = none ∨ lsb = none ∨ msb = none →
      generate_field_loop (fuel + 1) (Event.endTag ("field") :: rest) nm lsb msb =
        Res.err ParseError.MissingValue) ∧
    (∀ (fuel : Nat) (rest : List Event) (nm : Option String) (off : Option Nat) (flds : List Field),
      nm = none ∨ off = none →
      generate_register_loop (fuel + 1) (Event.endTag ("register") :: rest) nm off flds =
        Res.err ParseError.MissingValue) ∧
    (∀ (fuel : Nat) (rest : List Event) (nm : Option String) (b sz : Option Nat)
      (regs : List Register) (ints : List Interrupt),
      nm = none ∨ b = none ∨ sz = none →
      generate_peripheral_loop (fuel + 1) (Event.endTag ("peripheral") :: rest) nm b sz regs ints =
        Res.err ParseError.MissingValue) ∧
    (∀ (fuel : Nat) (rest : List Event) (nm : Option String) (b sz : Option Nat),
      nm = none ∨ b = none ∨ sz = none →
      generate_memory_region_loop (fuel + 1) (Event.endTag ("memoryRegion") :: rest) nm b sz =
        Res.err ParseError.MissingValue) ∧
    (∀ (fuel : Nat) (rest : List Event) (ints : List Interrupt),
      generate_interrupts (fuel + 1) (Event.endTag ("interrupt") :: rest) ints =
        Res.err ParseError.MissingValue) := by
  refine ⟨register_some_offset_ok_none_missing, ?_, ?_, ?_, ?_, ?_⟩
  · intro fuel rest nm lsb msb h
    simp only [generate_field_loop, read]
    rw [if_pos trivial]
    rcases h with rfl | rfl | rfl
    · rfl
    · cases nm <;> rfl
    · cases nm <;> cases lsb <;> rfl
  · intro fuel rest nm off flds h
    simp only [generate_register_loop, read]
    rw [if_pos trivial]
    rcases h with rfl | rfl
    · rfl
    · cases nm <;> rfl
  · intro fuel rest nm b sz regs ints h
    simp only [generate_peripheral_loop, read]
    rw [if_pos trivial]
    rcases h with rfl | rfl | rfl
    · rfl
    · cases nm <;> rfl
    · cases nm <;> cases b <;> rfl
  · intro fuel rest nm b sz h
    simp only [generate_memory_region_loop, read]
    rw [if_pos trivial]
    rcases h with rfl | rfl | rfl
    · rfl
    · cases nm <;> rfl
    · cases nm <;> cases b <;> rfl
  · intro fuel rest ints
    unfold generate_interrupts
    simp only [generate_interrupts_loop, read]
    rw [if_pos trivial]

/-- Claim C7, witness: the register element carrying only a `<name>`
parses fine once an offset is pre-supplied, and with no offset it fails
with `MissingValue`; immediately-closing field, register, peripheral,
memory region and interrupt nodes also fail with `MissingValue`. -/
theorem claim_C7_missing_value_witness :
    Event.start ("addressOffset") ∉ evs_register_no_offset ∧
    generate_register_loop 10 evs_register_no_offset none (some 0) [] =
      Res.ok { name := "CTRL", offset := 0, description := none, fields := [] } [] ∧
    generate_register_loop 10 evs_register_no_offset none none [] =
      Res.err ParseError.MissingValue ∧
    generate_field_loop 3 (Event.endTag ("field") :: []) none none none =
      Res.err ParseError.MissingValue ∧
    generate_register_loop 3 (Event.endTag ("register") :: []) none none [] =
      Res.err ParseError.MissingValue ∧
    generate_peripheral_loop 3 (Event.endTag ("peripheral") :: []) none none none [] [] =
      Res.err ParseError.MissingValue ∧
    generate_memory_region_loop 3 (Event.endTag ("memoryRegion") :: []) none none none =
      Res.err ParseError.MissingValue ∧
    generate_interrupts 3 (Event.endTag ("interrupt") :: []) [] =
      Res.err ParseError.MissingValue := by
  refine ⟨by decide, by rfl,
    claim_C7_missing_value.1 10 evs_register_no_offset none 0 []
      { name := "CTRL", offset := 0, description := none, fields := [] } [] (by decide) (by rfl),
    claim_C7_missing_value.2.1 2 [] none none none (Or.inl rfl),
    claim_C7_missing_value.2.2.1 2 [] none none [] (Or.inl rfl),
    claim_C7_missing_value.2.2.2.1 2 [] none none none [] [] (Or.inl rfl),
    claim_C7_missing_value.2.2.2.2.1 2 [] none none none (Or.inl rfl),
    claim_C7_missing_value.2.2.2.2.2 2 [] []⟩

/-! ## Claim C10: register descriptions are never populated -/

theorem generate_register_loop_description_none :
    ∀ (fuel : Nat) (evs : List Event) (nm : Option String) (off : Option Nat) (flds : List Field)
      {r : Register} {rest : List Event},
      generate_register_loop fuel evs nm off flds = Res.ok r rest → r.description = none := by
  intro fuel
  induction fuel with
  | zero =>
    intro evs nm off flds r rest h
    simp [generate_register_loop] at h
  | succ n ih =>
    intro evs nm off flds r rest h
    match evs with
    | [] =>
      simp only [generate_register_loop, read] at h
      exact ih [] _ _ _ h
    | e :: t =>
      cases e <;> simp only [generate_register_loop, read] at h
      case start tag =>
        split at h
        · cases hec : extract_contents t with
          | ok s1 rest2 => rw [hec] at h; exact ih rest2 _ _ _ h
          | err e1 => rw [hec] at h; simp at h
          | panic => rw [hec] at h; simp at h
          | hang => rw [hec] at h; simp at h
        · split at h
          · cases hec : extract_contents t with
            | ok s1 rest2 =>
              rw [hec] at h
              dsimp only at h
              cases hp : parse_usize s1.data with
              | ok v => rw [hp] at h; exact ih rest2 _ _ _ h
              | error e1 => rw [hp] at h; simp at h
            | err e1 => rw [hec] at h; simp at h
            | panic => rw [hec] at h; simp at h
            | hang => rw [hec] at h; simp at h
          · split at h
            · cases hgf : generate_fields n t flds with
              | ok flds2 rest2 => rw [hgf] at h; exact ih rest2 _ _ _ h
              | err e1 => rw [hgf] at h; simp at h
              | panic => rw [hgf] at h; simp at h
              | hang => rw [hgf] at h; simp at h
            · exact ih t _ _ _ h
      case startBad => simp at h
      case endTag tag =>
        split at h
        · cases nm with
          | none => simp at h
          | some nm2 =>
            cases off with
            | none => simp at h
            | some off2 =>
              obtain ⟨rfl, -⟩ := Res.ok.inj h
              rfl
        · exact ih t _ _ _ h
      case text sv => exact ih t _ _ _ h
      case textBad => exact ih t _ _ _ h
      case eof => exact ih t _ _ _ h
      case other => exact ih t _ _ _ h
      case tokErr => simp at h

theorem generate_registers_description_none :
    ∀ (fuel : Nat) (evs : List Event) (regs : List Register),
      (∀ r ∈ regs, r.description = none) →
      ∀ {regs2 : List Register} {rest : List Event},
        generate_registers fuel evs regs = Res.ok regs2 rest →
        ∀ r ∈ regs2, r.description = none := by
  intro fuel
  induction fuel with
  | zero =>
    intro evs regs hacc regs2 rest h
    simp [generate_registers] at h
  | succ n ih =>
    intro evs regs hacc regs2 rest h
    match evs with
    | [] => simp [generate_registers, read] at h
    | e :: t =>
      cases e <;> simp only [generate_registers, read] at h
      case start tag =>
        split at h
        · cases hgr : generate_register n t with
          | ok r1 rest2 =>
            rw [hgr] at h
            refine ih rest2 (regs ++ [r1]) ?_ h
            intro r hr
            rcases List.mem_append.mp hr with hr | hr
            · exact hacc r hr
            · rw [List.mem_singleton.mp hr]
              exact generate_register_loop_description_none n t none none [] hgr
          | err e1 => rw [hgr] at h; simp at h
          | panic => rw [hgr] at h; simp at h
          | hang => rw [hgr] at h; simp at h
        · simp at h
      case endTag tag =>
        split at h
        · obtain ⟨rfl, -⟩ := Res.ok.inj h
          exact hacc
        · simp at h
      case text sv => exact ih t regs hacc h
      case textBad => exact ih t regs hacc h
      case startBad => simp at h
      case eof => simp at h
      case other => simp at h
      case tokErr => simp at h

theorem generate_peripheral_loop_description_none :
    ∀ (fuel : Nat) (evs : List Event) (nm : Option String) (b sz : Option Nat)
      (regs : List Register) (ints : List Interrupt),
      (∀ r ∈ regs, r.description = none) →
      ∀ {p : Peripheral} {rest : List Event},
        generate_peripheral_loop fuel evs nm b sz regs ints = Res.ok p rest →
        ∀ r ∈ p.registers, r.description = none := by
  intro fuel
  induction fuel with
  | zero =>
    intro evs nm b sz regs ints hacc p rest h
    simp [generate_peripheral_loop] at h
  | succ n ih =>
    intro evs nm b sz regs ints hacc p rest h
    match evs with
    | [] =>
      simp only [generate_peripheral_loop, read] at h
      exact ih [] _ _ _ _ _ hacc h
    | e :: t =>
      cases e <;> simp only [generate_peripheral_loop, read] at h
      case start tag =>
        split at h
        · cases hec : extract_contents t with
          | ok s1 rest2 => rw [hec] at h; exact ih rest2 _ _ _ _ _ hacc h
          | err e1 => rw [hec] at h; simp at h
          | panic => rw [hec] at h; simp at h
          | hang => rw [hec] at h; simp at h
        · split at h
          · cases hec : extract_contents t with
            | ok s1 rest2 =>
              rw [hec] at h
              dsimp only at h
              cases hp : parse_usize s1.data with
              | ok v => rw [hp] at h; exact ih rest2 _ _ _ _ _ hacc h
              | error e1 => rw [hp] at h; simp at h
            | err e1 => rw [hec] at h; simp at h
            | panic => rw [hec] at h; simp at h
            | hang => rw [hec] at h; simp at h
          · split at h
            · cases hec : extract_contents t with
              | ok s1 rest2 =>
                rw [hec] at h
                dsimp only at h
                cases hp : parse_usize s1.data with
                | ok v => rw [hp] at h; exact ih rest2 _ _ _ _ _ hacc h
                | error e1 => rw [hp] at h; simp at h
              | err e1 => rw [hec] at h; simp at h
              | panic => rw [hec] at h; simp at h
              | hang => rw [hec] at h; simp at h
            · split at h
              · cases hgr : generate_registers n t regs with
                | ok regs2 rest2 =>
                  rw [hgr] at h
                  exact ih rest2 _ _ _ _ _
                    (generate_registers_description_none n t regs hacc hgr) h
                | err e1 => rw [hgr] at h; simp at h
                | panic => rw [hgr] at h; simp at h
                | hang => rw [hgr] at h; simp at h
              · split at h
                · cases hgi : generate_interrupts n t ints with
                  | ok ints2 rest2 => rw [hgi] at h; exact ih rest2 _ _ _ _ _ hacc h
                  | err e1 => rw [hgi] at h; simp at h
                  | panic => rw [hgi] at h; simp at h
                  | hang => rw [hgi] at h; simp at h
                · exact ih t _ _ _ _ _ hacc h
      case startBad => simp at h
      case endTag tag =>
        split at h
        · cases nm with
          | none => simp at h
          | some nm2 =>
            cases b with
            | none => simp at h
            | some b2 =>
              cases sz with
              | none => simp at h
              | some sz2 =>
                obtain ⟨rfl, -⟩ := Res.ok.inj h
                exact hacc
        · exact ih t _ _ _ _ _ hacc h
      case text sv => exact ih t _ _ _ _ _ hacc h
      case textBad => exact ih t _ _ _ _ _ hacc h
      case eof => exact ih t _ _ _ _ _ hacc h
      case other => exact ih t _ _ _ _ _ hacc h
      case tokErr => simp at h

theorem generate_peripherals_description_none :
    ∀ (fuel : Nat) (evs : List Event) (ps : List Peripheral),
      (∀ p ∈ ps, ∀ r ∈ p.registers, r.description = none) →
      ∀ {ps2 : List Peripheral} {rest : List Event},
        generate_peripherals fuel evs ps = Res.ok ps2 rest →
        ∀ p ∈ ps2, ∀ r ∈ p.registers, r.description = none := by
  intro fuel
  induction fuel with
  | zero =>
    intro evs ps hacc ps2 rest h
    simp [generate_peripherals] at h
  | succ n ih =>
    intro evs ps hacc ps2 rest h
    match evs with
    | [] => simp [generate_peripherals, read] at h
    | e :: t =>
      cases e <;> simp only [generate_peripherals, read] at h
      case start tag =>
        split at h
        · cases hgp : generate_peripheral n t with
          | ok p1 rest2 =>
            rw [hgp] at h
            refine ih rest2 (ps ++ [p1]) ?_ h
            intro p hp
            rcases List.mem_append.mp hp with hp | hp
            · exact hacc p hp
            · rw [List.mem_singleton.mp hp]
              exact generate_peripheral_loop_description_none n t none none none [] []
                (by simp) hgp
          | err e1 => rw [hgp] at h; simp at h
          | panic => rw [hgp] at h; simp at h
          | hang => rw [hgp] at h; simp at h
        · simp at h
      case endTag tag =>
        split at h
        · obtain ⟨rfl, -⟩ := Res.ok.inj h
          exact hacc
        · simp at h
      case text sv => exact ih t ps hacc h
      case textBad => exact ih t ps hacc h
      case startBad => simp at h
      case eof => simp at h
      case other => simp at h
      case tokErr => simp at h

theorem parse_svd_loop_description_none :
    ∀ (fuel : Nat) (evs : List Event) (desc : Description),
      (∀ p ∈ desc.peripherals, ∀ r ∈ p.registers, r.description = none) →
      ∀ {d : Description} {rest : List Event},
        parse_svd_loop fuel evs desc = Res.ok d rest →
        ∀ p ∈ d.peripherals, ∀ r ∈ p.registers, r.description = none := by
  intro fuel
  induction fuel with
  | zero =>
    intro evs desc hacc d rest h
    simp [parse_svd_loop] at h
  | succ n ih =>
    intro evs desc hacc d rest h
    match evs with
    | [] =>
      simp only [parse_svd_loop, read] at h
      obtain ⟨rfl, -⟩ := Res.ok.inj h
      exact hacc
    | e :: t =>
      cases e <;> simp only [parse_svd_loop, read] at h
      case start tag =>
        split at h
        · cases hgp : generate_peripherals n t [] with
          | ok ps rest2 =>
            rw [hgp] at h
            exact ih rest2 _
              (generate_peripherals_description_none n t [] (by simp) hgp) h
          | err e1 => rw [hgp] at h; simp at h
          | panic => rw [hgp] at h; simp at h
          | hang => rw [hgp] at h; simp at h
        · split at h
          · cases hvx : parse_vendor_extensions n t desc.memory_regions with
            | ok regions rest2 =>
              rw [hvx] at h
              exact ih rest2 { peripherals := desc.peripherals, memory_regions := regions } hacc h
            | err e1 => rw [hvx] at h; simp at h
            | panic => rw [hvx] at h; simp at h
            | hang => rw [hvx] at h; simp at h
          · exact ih t _ hacc h
      case startBad => exact ih t _ hacc h
      case endTag tag => exact ih t _ hacc h
      case text sv => exact ih t _ hacc h
      case textBad => exact ih t _ hacc h
      case eof =>
        obtain ⟨rfl, -⟩ := Res.ok.inj h
        exact hacc
      case other => exact ih t _ hacc h
      case tokErr => simp at h

/-- Claim C10: every register of every successfully parsed description
has `description = none` (the parser never extracts one), and for such
registers the emitter produces no description comment line: the
register block is exactly the blank line, the register constant and the
field constants. -/
theorem claim_C10_description_never_emitted :
    (∀ (fuel : Nat) (evs : List Event) (d : Description) (rest : List Event),
      parse_svd fuel evs = Res.ok d rest →
      ∀ p ∈ d.peripherals, ∀ r ∈ p.registers, r.description = none) ∧
    (∀ r : Register, r.description = none →
      register_block r =
        "\n" ++ register_const_line r ++ emit_concat (field_const_line r) r.fields) := by
  constructor
  · intro fuel evs d rest h
    exact parse_svd_loop_description_none fuel evs _ (by simp) h
  · intro r hr
    unfold register_block
    rw [hr, foldl_append_eq (field_const_line r) r.fields (""), String.empty_append,
      String.append_empty]

/-- Claim C10, witness: the parse of `evs_order` succeeds, its register
`rb` carries no description, and its emitted block has no comment
line. -/
theorem claim_C10_description_never_emitted_witness :
    Register.description reg_rb = none ∧
    register_block reg_rb =
      "\n" ++ register_const_line reg_rb ++ emit_concat (field_const_line reg_rb) reg_rb.fields := by
  refine ⟨claim_C10_description_never_emitted.1 200 evs_order desc_order [] (by rfl)
      per_zzz (by decide) reg_rb (by decide),
    claim_C10_description_never_emitted.2 reg_rb (by rfl)⟩

example : parse_usize ['0', 'x', '1', 'A'] = Except.ok 26 := by rfl
example : parse_usize ['0', 'b', '1', '0', '1'] = Except.ok 5 := by rfl
example : parse_usize ['0', '1', '7'] = Except.ok 15 := by rfl
example : parse_usize ['4', '2'] = Except.ok 42 := by rfl
example : parse_usize ['0'] = Except.ok 0 := by rfl
example : parse_usize ['0', '0'] = Except.error ParseError.ParseIntError := by rfl
example : get_base ['0', '0', '1', '0'] = (['1', '0'], 8) := by decide

end Svd2Utra
